import Mathlib

/-!
Verification development for the marketplace-ml crawling pipeline.

This file gives a shallow embedding of the two workers and of the custom
BFS crawler (src/app/services/custom_crawler.py, src/app/workers/*.py,
src/app/services/queue_service.py) and proves properties about it.

External effects (browser rendering, HTTP, BeautifulSoup parsing, the file
system, SQS) are modelled as oracle fields of an environment record; the
in-repository control flow and data manipulation are translated directly.
-/

namespace Marketplace

/-- URLs are kept in parsed form, mirroring the fields of Python's
urlparse that the code reads: scheme, netloc, path and query. -/
structure Url where
  scheme : String
  netloc : String
  path : String
  query : String
deriving DecidableEq, Repr

/-- Reassembled URL string, used where the code operates on the raw URL
string (current_url.lower().endswith('.pdf')). -/
def urlString (u : Url) : String :=
  u.scheme ++ "://" ++ u.netloc ++ u.path ++
    (if u.query = "" then "" else "?" ++ u.query)

/-- Lower-casing as Python str.lower on the code's ASCII inputs,
written at character level so that terms reduce. -/
def strToLower (s : String) : String :=
  String.mk (s.data.map Char.toLower)

/-- Python str.endswith, at character level. -/
def strEndsWith (s suffix : String) : Bool :=
  suffix.data.isSuffixOf s.data

/-- Python str.startswith, at character level. -/
def strStartsWith (s pre : String) : Bool :=
  pre.data.isPrefixOf s.data

/-- Python substring membership (needle in hay), at character level. -/
def containsSubstring (needle : List Char) : List Char → Bool
  | [] => needle.isEmpty
  | c :: t => needle.isPrefixOf (c :: t) || containsSubstring needle t

/-- Embeds is_same_domain: urlparse(url).netloc == base_domain. -/
def is_same_domain (u : Url) (baseDomain : String) : Bool :=
  u.netloc == baseDomain

/-- Embeds is_allowed_url: allowed when robots compliance is off or no
rules were fetched; otherwise the URL path must start with no disallowed
prefix. -/
def is_allowed_url (respectRobots : Bool) (u : Url) (disallowedPaths : List String) : Bool :=
  if !respectRobots || disallowedPaths.isEmpty then
    true
  else
    disallowedPaths.all (fun d => !(strStartsWith u.path d))

/-- Embeds the test current_url.lower().endswith('.pdf') used by the
crawl loop to classify a popped URL as a document. -/
def urlEndsWithPdf (u : Url) : Bool :=
  strEndsWith (strToLower (urlString u)) ".pdf"

/-- An HTTP response as seen by download_pdf via requests.get. -/
structure HttpResponse where
  status : Nat
  contentType : String
  body : String
deriving DecidableEq, Repr

/-- Environment of oracles for everything outside the repository's own
code: configuration values, library availability, browser rendering,
BeautifulSoup anchor extraction, urljoin, HTTP, the file system clock and
file-system success of writes. -/
structure CrawlEnv where
  browserType : String
  playwrightAvailable : Bool
  seleniumAvailable : Bool
  respectRobots : Bool
  maxPages : Nat
  pdfFolder : String
  htmlFolder : String
  markdownFolder : String
  robotsRules : List String
  pageContent : Url → Option String
  hrefs : String → Except String (List String)
  urljoin : Url → String → Url
  httpGet : Url → Option HttpResponse
  saveHtmlOk : Url → Bool
  convertOk : Url → Bool
  now : Nat

/-- The two concrete browser backends of setup_browser. -/
inductive BrowserContext where
  | playwright
  | selenium
deriving DecidableEq, Repr

/-- Embeds setup_browser: picks the configured backend when its library
loaded at module import time, otherwise raises ValueError. -/
def setup_browser (env : CrawlEnv) : Except String BrowserContext :=
  if env.browserType == "playwright" && env.playwrightAvailable then
    Except.ok BrowserContext.playwright
  else if env.browserType == "selenium" && env.seleniumAvailable then
    Except.ok BrowserContext.selenium
  else
    Except.error ("Browser type " ++ env.browserType ++ " not available or not supported")

/-- Embeds extract_links given the anchors BeautifulSoup found: one pass
mapping every href through urljoin, then a second pass re-appending the
hrefs whose lowercase form ends in .pdf. -/
def extract_links (env : CrawlEnv) (anchorHrefs : List String) (base : Url) : List Url :=
  anchorHrefs.map (env.urljoin base) ++
    (anchorHrefs.filter (fun h => strEndsWith (strToLower h) ".pdf")).map (env.urljoin base)

/-- Last path segment, embedding os.path.basename on a URL path. -/
def pathBasename (p : String) : String :=
  String.mk ((p.data.reverse.takeWhile (fun c => c ≠ '/')).reverse)

/-- Embeds download_pdf's file path: pdf_folder/company_jobid/filename,
where filename is the basename of the URL path or a timestamped default
when the basename is empty. -/
def pdfFilePath (env : CrawlEnv) (u : Url) (companyName jobId : String) : String :=
  let filename :=
    if pathBasename u.path = "" then
      "document_" ++ toString env.now ++ ".pdf"
    else
      pathBasename u.path
  env.pdfFolder ++ "/" ++ companyName ++ "_" ++ jobId ++ "/" ++ filename

/-- Embeds download_pdf. Returns the persisted file path together with
the ghost list of (path, body) writes it performed; a request exception
or a failing status/content-type check persists nothing and yields None.
The content-type test is the Python substring test
'application/pdf' in response.headers.get('Content-Type', ''). -/
def download_pdf (env : CrawlEnv) (u : Url) (companyName jobId : String) :
    Option String × List (String × String) :=
  match env.httpGet u with
  | none => (none, [])
  | some resp =>
    if resp.status == 200 && containsSubstring "application/pdf".data resp.contentType.data then
      (some (pdfFilePath env u companyName jobId), [(pdfFilePath env u companyName jobId, resp.body)])
    else
      (none, [])

/-- Characters kept verbatim by save_html's re.sub(r'[^\w\-_.]', '_', path)
(ASCII fragment of \w). -/
def isSafeFilenameChar (c : Char) : Bool :=
  c.isAlphanum || c == '_' || c == '-' || c == '.'

/-- Embeds Python str.strip('/'): removes leading and trailing slashes. -/
def stripSlashes (s : String) : String :=
  String.mk (((s.data.dropWhile (fun c => c = '/')).reverse.dropWhile (fun c => c = '/')).reverse)

/-- Embeds save_html's derived file path: sanitized URL path (or "index"
for an empty path) with an .html suffix under the per-company folder. -/
def htmlFilePath (env : CrawlEnv) (u : Url) (companyName jobId : String) : String :=
  let p := stripSlashes u.path
  let p := if p = "" then "index" else p
  let filename := String.mk (p.data.map (fun c => if isSafeFilenameChar c then c else '_')) ++ ".html"
  env.htmlFolder ++ "/" ++ companyName ++ "_" ++ jobId ++ "/" ++ filename

/-- Embeds save_html's outcome: the derived path on success, None when a
file-system exception is caught. -/
def save_html (env : CrawlEnv) (u : Url) (companyName jobId : String) : Option String :=
  if env.saveHtmlOk u then some (htmlFilePath env u companyName jobId) else none

/-- Embeds convert_html_to_markdown's outcome for a saved page: the
markdown path mirrors the html file name with an .md suffix; None when
reading or writing raises. -/
def convert_html_to_markdown_path (env : CrawlEnv) (u : Url) (companyName jobId : String) :
    Option String :=
  let p := stripSlashes u.path
  let p := if p = "" then "index" else p
  let stem := String.mk (p.data.map (fun c => if isSafeFilenameChar c then c else '_'))
  if env.convertOk u then
    some (env.markdownFolder ++ "/" ++ companyName ++ "_" ++ jobId ++ "/" ++ stem ++ ".md")
  else
    none

/-- State of one traversal session. visited_urls is a Python set, kept
here as a duplicate-free list; to_visit is the FIFO frontier. fetchLog,
enqueueLog and savedDocs are ghost event logs recording, in order, every
URL a fetch was issued for (page render or document GET), every URL ever
appended to the frontier (including the root seed), and every document
write. -/
structure CrawlState where
  visited : List Url
  toVisit : List Url
  pageCount : Nat
  pdfFiles : List String
  htmlFiles : List String
  markdownFiles : List String
  fetchLog : List Url
  enqueueLog : List Url
  savedDocs : List (String × String)
deriving DecidableEq, Repr

/-- Embeds the frontier-insertion loop over extracted links: each link is
appended only when it is unvisited, not already queued, same-domain and
robots-allowed. Returns the new frontier and enqueue log. -/
def insertLinks (env : CrawlEnv) (baseDomain : String) (disallowedPaths : List String)
    (visited : List Url) : List Url → List Url → List Url → List Url × List Url
  | [], toVisit, log => (toVisit, log)
  | l :: ls, toVisit, log =>
    if l ∉ visited ∧ l ∉ toVisit ∧ is_same_domain l baseDomain = true ∧
        is_allowed_url env.respectRobots l disallowedPaths = true then
      insertLinks env baseDomain disallowedPaths visited ls (toVisit ++ [l]) (log ++ [l])
    else
      insertLinks env baseDomain disallowedPaths visited ls toVisit log

/-- State change shared by every branch that marks a popped URL visited:
add it to the visited set, count it, drop it from the frontier. -/
def markVisited (st : CrawlState) (u : Url) (rest : List Url) : CrawlState :=
  { st with
    visited := u :: st.visited
    toVisit := rest
    pageCount := st.pageCount + 1 }

/-- State change of the document branch: record the fetch, the document
writes and, on success, the new document path. -/
def pdfBranch (env : CrawlEnv) (companyName jobId : String) (st1 : CrawlState) (u : Url) :
    CrawlState :=
  let dl := download_pdf env u companyName jobId
  { st1 with
    fetchLog := st1.fetchLog ++ [u]
    savedDocs := st1.savedDocs ++ dl.2
    pdfFiles :=
      match dl.1 with
      | some p => st1.pdfFiles ++ [p]
      | none => st1.pdfFiles }

/-- State change of a rendered page whose content arrived: record the
fetch and the raw-page / extracted-text artifacts that were saved. -/
def htmlBranch (env : CrawlEnv) (companyName jobId : String) (st1 : CrawlState) (u : Url) :
    CrawlState :=
  let artifacts : List String × List String :=
    match save_html env u companyName jobId with
    | none => ([], [])
    | some hp =>
      match convert_html_to_markdown_path env u companyName jobId with
      | none => ([hp], [])
      | some mp => ([hp], [mp])
  { st1 with
    fetchLog := st1.fetchLog ++ [u]
    htmlFiles := st1.htmlFiles ++ artifacts.1
    markdownFiles := st1.markdownFiles ++ artifacts.2 }

/-- Embeds the while loop of crawl_website. The second component is the
exception escaping the loop body into crawl_website's except clause
(None for a normal loop exit); only BeautifulSoup anchor extraction is
uncaught inside the body, every other failure is absorbed locally. -/
def crawlLoop (env : CrawlEnv) (baseDomain : String) (disallowedPaths : List String)
    (companyName jobId : String) (st : CrawlState) : CrawlState × Option String :=
  match hv : st.toVisit with
  | [] => (st, none)
  | u :: rest =>
    if hc : env.maxPages ≤ st.pageCount then
      (st, none)
    else if u ∈ st.visited ∨ is_allowed_url env.respectRobots u disallowedPaths = false then
      crawlLoop env baseDomain disallowedPaths companyName jobId { st with toVisit := rest }
    else
      let st1 := markVisited st u rest
      if urlEndsWithPdf u then
        crawlLoop env baseDomain disallowedPaths companyName jobId
          (pdfBranch env companyName jobId st1 u)
      else
        match env.pageContent u with
        | none =>
          crawlLoop env baseDomain disallowedPaths companyName jobId
            { st1 with fetchLog := st1.fetchLog ++ [u] }
        | some content =>
          let st2 := htmlBranch env companyName jobId st1 u
          match env.hrefs content with
          | Except.error e => (st2, some e)
          | Except.ok anchors =>
            let links := extract_links env anchors u
            let inserted := insertLinks env baseDomain disallowedPaths st2.visited links
              st2.toVisit st2.enqueueLog
            crawlLoop env baseDomain disallowedPaths companyName jobId
              { st2 with toVisit := inserted.1, enqueueLog := inserted.2 }
termination_by (env.maxPages - st.pageCount, st.toVisit.length)
decreasing_by
  all_goals simp_wf
  all_goals try simp only [markVisited, pdfBranch, htmlBranch]
  all_goals first
    | (apply Prod.Lex.right; simp [hv])
    | (apply Prod.Lex.left; simp [markVisited, pdfBranch, htmlBranch]; omega)
    | (apply Prod.Lex.left; omega)

/-- The same-domain, robots-allowed links the loop would discover from a
visited URL: empty for document URLs, failed renders and anchor
extraction errors, otherwise the extracted links passing the
same-domain and robots filters of the insertion condition. -/
def crawlSucc (env : CrawlEnv) (baseDomain : String) (disallowedPaths : List String) (u : Url) :
    List Url :=
  if urlEndsWithPdf u then []
  else
    match env.pageContent u with
    | none => []
    | some content =>
      match env.hrefs content with
      | Except.error _ => []
      | Except.ok anchors =>
        (extract_links env anchors u).filter
          (fun l => is_same_domain l baseDomain && is_allowed_url env.respectRobots l disallowedPaths)

theorem crawlSucc_allowed {env : CrawlEnv} {baseDomain : String} {disallowedPaths : List String}
    {u z : Url} (hz : z ∈ crawlSucc env baseDomain disallowedPaths u) :
    is_same_domain z baseDomain = true ∧ is_allowed_url env.respectRobots z disallowedPaths = true := by
  unfold crawlSucc at hz
  split at hz
  · simp at hz
  · split at hz
    · simp at hz
    · split at hz
      · simp at hz
      · have := List.of_mem_filter hz
        simpa using this

/-- The robots-allowed, same-domain reachable set of a crawl session:
the root when it is robots-allowed, closed under the links the crawl
discovers. -/
inductive Reach (env : CrawlEnv) (baseDomain : String) (disallowedPaths : List String)
    (website : Url) : Url → Prop where
  | root : is_allowed_url env.respectRobots website disallowedPaths = true →
      Reach env baseDomain disallowedPaths website website
  | step {u v : Url} : Reach env baseDomain disallowedPaths website u →
      v ∈ crawlSucc env baseDomain disallowedPaths u →
      Reach env baseDomain disallowedPaths website v

/-- Invariant of the traversal loop, relating the visited set, the
frontier, the page counter and the ghost logs. -/
structure LoopInv (env : CrawlEnv) (baseDomain : String) (disallowedPaths : List String)
    (website : Url) (st : CrawlState) : Prop where
  visitedNodup : st.visited.Nodup
  toVisitNodup : st.toVisit.Nodup
  countEq : st.pageCount = st.visited.length
  countLe : st.pageCount ≤ env.maxPages
  enqNodup : st.enqueueLog.Nodup
  toVisitSub : ∀ u ∈ st.toVisit, u ∈ st.enqueueLog
  visitedSub : ∀ u ∈ st.visited, u ∈ st.enqueueLog
  enqCases : ∀ u ∈ st.enqueueLog,
    u ∈ st.visited ∨ u ∈ st.toVisit ∨ is_allowed_url env.respectRobots u disallowedPaths = false
  fetchNodup : st.fetchLog.Nodup
  fetchSub : ∀ u ∈ st.fetchLog, u ∈ st.visited
  closure : ∀ v ∈ st.visited, ∀ z ∈ crawlSucc env baseDomain disallowedPaths v,
    z ∈ st.visited ∨ z ∈ st.toVisit
  rootInv : website ∈ st.visited ∨ website ∈ st.toVisit ∨
    is_allowed_url env.respectRobots website disallowedPaths = false
  visitedAllowed : ∀ u ∈ st.visited, is_allowed_url env.respectRobots u disallowedPaths = true
  enqDomain : ∀ u ∈ st.enqueueLog, u = website ∨ is_same_domain u baseDomain = true

theorem insertLinks_tv_mono (env : CrawlEnv) (baseDomain : String) (disallowedPaths : List String)
    (visited : List Url) (links : List Url) :
    ∀ (tv log : List Url), ∀ x ∈ tv,
      x ∈ (insertLinks env baseDomain disallowedPaths visited links tv log).1 := by
  induction links with
  | nil => intro tv log x hx; simpa [insertLinks] using hx
  | cons l ls ih =>
    intro tv log x hx
    rw [insertLinks]
    split
    · exact ih (tv ++ [l]) (log ++ [l]) x (by simp [hx])
    · exact ih tv log x hx

theorem insertLinks_log_mono (env : CrawlEnv) (baseDomain : String) (disallowedPaths : List String)
    (visited : List Url) (links : List Url) :
    ∀ (tv log : List Url), ∀ x ∈ log,
      x ∈ (insertLinks env baseDomain disallowedPaths visited links tv log).2 := by
  induction links with
  | nil => intro tv log x hx; simpa [insertLinks] using hx
  | cons l ls ih =>
    intro tv log x hx
    rw [insertLinks]
    split
    · exact ih (tv ++ [l]) (log ++ [l]) x (by simp [hx])
    · exact ih tv log x hx

theorem insertLinks_tv_sub_log (env : CrawlEnv) (baseDomain : String)
    (disallowedPaths : List String) (visited : List Url) (links : List Url) :
    ∀ (tv log : List Url), (∀ u ∈ tv, u ∈ log) →
      ∀ u ∈ (insertLinks env baseDomain disallowedPaths visited links tv log).1,
        u ∈ (insertLinks env baseDomain disallowedPaths visited links tv log).2 := by
  induction links with
  | nil => intro tv log hsub u hu; exact hsub u (by simpa [insertLinks] using hu)
  | cons l ls ih =>
    intro tv log hsub u hu
    rw [insertLinks] at hu ⊢
    split at hu
    · rw [if_pos (by assumption)]
      refine ih (tv ++ [l]) (log ++ [l]) ?_ u hu
      intro x hx
      rcases List.mem_append.mp hx with hx | hx
      · exact List.mem_append.mpr (Or.inl (hsub x hx))
      · exact List.mem_append.mpr (Or.inr hx)
    · rw [if_neg (by assumption)]
      exact ih tv log hsub u hu

theorem insertLinks_complete (env : CrawlEnv) (baseDomain : String)
    (disallowedPaths : List String) (visited : List Url) (links : List Url) :
    ∀ (tv log : List Url), ∀ l ∈ links,
      is_same_domain l baseDomain = true →
      is_allowed_url env.respectRobots l disallowedPaths = true →
      l ∈ visited ∨ l ∈ (insertLinks env baseDomain disallowedPaths visited links tv log).1 := by
  induction links with
  | nil => intro tv log l hl; simp at hl
  | cons k ls ih =>
    intro tv log l hl hsd hal
    rcases List.mem_cons.mp hl with hl | hl
    · subst hl
      rw [insertLinks]
      by_cases hv : l ∈ visited
      · exact Or.inl hv
      · by_cases htv : l ∈ tv
        · split
          · exact Or.inr (insertLinks_tv_mono env baseDomain disallowedPaths visited ls
              (tv ++ [l]) (log ++ [l]) l (by simp [htv]))
          · exact Or.inr (insertLinks_tv_mono env baseDomain disallowedPaths visited ls
              tv log l htv)
        · rw [if_pos ⟨hv, htv, hsd, hal⟩]
          exact Or.inr (insertLinks_tv_mono env baseDomain disallowedPaths visited ls
            (tv ++ [l]) (log ++ [l]) l (by simp))
    · rw [insertLinks]
      split
      · exact ih (tv ++ [k]) (log ++ [k]) l hl hsd hal
      · exact ih tv log l hl hsd hal

theorem insertLinks_tv_nodup (env : CrawlEnv) (baseDomain : String)
    (disallowedPaths : List String) (visited : List Url) (links : List Url) :
    ∀ (tv log : List Url), tv.Nodup →
      (insertLinks env baseDomain disallowedPaths visited links tv log).1.Nodup := by
  induction links with
  | nil => intro tv log h; simpa [insertLinks] using h
  | cons l ls ih =>
    intro tv log h
    rw [insertLinks]
    split
    · refine ih (tv ++ [l]) (log ++ [l]) ?_
      have hltv : l ∉ tv := by
        have hcond : l ∉ visited ∧ l ∉ tv ∧ is_same_domain l baseDomain = true ∧
          is_allowed_url env.respectRobots l disallowedPaths = true := by assumption
        exact hcond.2.1
      simp [List.nodup_append, h, hltv]
    · exact ih tv log h

theorem insertLinks_log_inv (env : CrawlEnv) (baseDomain : String)
    (disallowedPaths : List String) (visited : List Url) (links : List Url) :
    ∀ (tv log : List Url), log.Nodup →
      (∀ u ∈ log, u ∈ visited ∨ u ∈ tv ∨
        is_allowed_url env.respectRobots u disallowedPaths = false) →
      (insertLinks env baseDomain disallowedPaths visited links tv log).2.Nodup ∧
      (∀ u ∈ (insertLinks env baseDomain disallowedPaths visited links tv log).2,
        u ∈ visited ∨ u ∈ (insertLinks env baseDomain disallowedPaths visited links tv log).1 ∨
          is_allowed_url env.respectRobots u disallowedPaths = false) := by
  induction links with
  | nil =>
    intro tv log hnd hcases
    constructor
    · simpa [insertLinks] using hnd
    · intro u hu
      simpa [insertLinks] using hcases u (by simpa [insertLinks] using hu)
  | cons l ls ih =>
    intro tv log hnd hcases
    rw [insertLinks]
    split
    · have hcond : l ∉ visited ∧ l ∉ tv ∧ is_same_domain l baseDomain = true ∧
        is_allowed_url env.respectRobots l disallowedPaths = true := by assumption
      have hlog : l ∉ log := by
        intro hmem
        rcases hcases l hmem with h | h | h
        · exact hcond.1 h
        · exact hcond.2.1 h
        · rw [hcond.2.2.2] at h; cases h
      refine ih (tv ++ [l]) (log ++ [l]) ?_ ?_
      · simp [List.nodup_append, hnd, hlog]
      · intro u hu
        rcases List.mem_append.mp hu with hu | hu
        · rcases hcases u hu with h | h | h
          · exact Or.inl h
          · exact Or.inr (Or.inl (by simp [h]))
          · exact Or.inr (Or.inr h)
        · simp at hu
          subst hu
          exact Or.inr (Or.inl (by simp))
    · exact ih tv log hnd hcases

theorem insertLinks_domain (env : CrawlEnv) (baseDomain : String)
    (disallowedPaths : List String) (visited : List Url) (links : List Url) (website : Url) :
    ∀ (tv log : List Url),
      (∀ u ∈ log, u = website ∨ is_same_domain u baseDomain = true) →
      ∀ u ∈ (insertLinks env baseDomain disallowedPaths visited links tv log).2,
        u = website ∨ is_same_domain u baseDomain = true := by
  induction links with
  | nil => intro tv log hdom u hu; exact hdom u (by simpa [insertLinks] using hu)
  | cons l ls ih =>
    intro tv log hdom u hu
    rw [insertLinks] at hu
    split at hu
    · have hcond : l ∉ visited ∧ l ∉ tv ∧ is_same_domain l baseDomain = true ∧
        is_allowed_url env.respectRobots l disallowedPaths = true := by assumption
      refine ih (tv ++ [l]) (log ++ [l]) ?_ u hu
      intro x hx
      rcases List.mem_append.mp hx with hx | hx
      · exact hdom x hx
      · simp at hx
        subst hx
        exact Or.inr hcond.2.2.1
    · exact ih tv log hdom u hu

set_option maxHeartbeats 1000000 in
theorem crawlLoop_empty (env : CrawlEnv) (baseDomain : String) (disallowedPaths : List String)
    (companyName jobId : String) {st : CrawlState} (h : st.toVisit = []) :
    crawlLoop env baseDomain disallowedPaths companyName jobId st = (st, none) := by
  rw [crawlLoop]
  split
  · rfl
  · next u rest heq => rw [h] at heq; cases heq

set_option maxHeartbeats 1000000 in
theorem crawlLoop_budget (env : CrawlEnv) (baseDomain : String) (disallowedPaths : List String)
    (companyName jobId : String) {st : CrawlState} {u : Url} {rest : List Url}
    (h : st.toVisit = u :: rest) (hb : env.maxPages ≤ st.pageCount) :
    crawlLoop env baseDomain disallowedPaths companyName jobId st = (st, none) := by
  rw [crawlLoop]
  split
  · rfl
  · next u2 rest2 heq =>
    rw [dif_pos hb]

set_option maxHeartbeats 1000000 in
theorem crawlLoop_halt (env : CrawlEnv) (baseDomain : String) (disallowedPaths : List String)
    (companyName jobId : String) {st : CrawlState}
    (h : st.toVisit = [] ∨ env.maxPages ≤ st.pageCount) :
    crawlLoop env baseDomain disallowedPaths companyName jobId st = (st, none) := by
  cases hv : st.toVisit with
  | nil => exact crawlLoop_empty env baseDomain disallowedPaths companyName jobId hv
  | cons u rest =>
    rcases h with h | h
    · rw [h] at hv
      cases hv
    · exact crawlLoop_budget env baseDomain disallowedPaths companyName jobId hv h

theorem crawlLoop_skip (env : CrawlEnv) (baseDomain : String) (disallowedPaths : List String)
    (companyName jobId : String) {st : CrawlState} {u : Url} {rest : List Url}
    (h : st.toVisit = u :: rest) (hb : ¬ env.maxPages ≤ st.pageCount)
    (hskip : u ∈ st.visited ∨ is_allowed_url env.respectRobots u disallowedPaths = false) :
    crawlLoop env baseDomain disallowedPaths companyName jobId st =
      crawlLoop env baseDomain disallowedPaths companyName jobId { st with toVisit := rest } := by
  rw [crawlLoop]
  split
  · next heq => rw [heq] at h; cases h
  · next u2 rest2 heq =>
    rw [heq] at h
    injection h with h1 h2
    subst h1; subst h2
    rw [dif_neg hb, if_pos hskip]

set_option maxHeartbeats 1000000 in
theorem crawlLoop_pdf (env : CrawlEnv) (baseDomain : String) (disallowedPaths : List String)
    (companyName jobId : String) {st : CrawlState} {u : Url} {rest : List Url}
    (h : st.toVisit = u :: rest) (hb : ¬ env.maxPages ≤ st.pageCount)
    (hvis : u ∉ st.visited) (hal : is_allowed_url env.respectRobots u disallowedPaths = true)
    (hpdf : urlEndsWithPdf u = true) :
    crawlLoop env baseDomain disallowedPaths companyName jobId st =
      crawlLoop env baseDomain disallowedPaths companyName jobId
        (pdfBranch env companyName jobId (markVisited st u rest) u) := by
  rw [crawlLoop]
  split
  · next heq => rw [heq] at h; cases h
  · next u2 rest2 heq =>
    rw [heq] at h
    injection h with h1 h2
    subst h1; subst h2
    rw [dif_neg hb, if_neg (by simp [hvis, hal]), if_pos hpdf]

set_option maxHeartbeats 1000000 in
theorem crawlLoop_nocontent (env : CrawlEnv) (baseDomain : String) (disallowedPaths : List String)
    (companyName jobId : String) {st : CrawlState} {u : Url} {rest : List Url}
    (h : st.toVisit = u :: rest) (hb : ¬ env.maxPages ≤ st.pageCount)
    (hvis : u ∉ st.visited) (hal : is_allowed_url env.respectRobots u disallowedPaths = true)
    (hpdf : urlEndsWithPdf u = false) (hpc : env.pageContent u = none) :
    crawlLoop env baseDomain disallowedPaths companyName jobId st =
      crawlLoop env baseDomain disallowedPaths companyName jobId
        { markVisited st u rest with fetchLog := (markVisited st u rest).fetchLog ++ [u] } := by
  rw [crawlLoop]
  split
  · next heq => rw [heq] at h; cases h
  · next u2 rest2 heq =>
    rw [heq] at h
    injection h with h1 h2
    subst h1; subst h2
    rw [dif_neg hb, if_neg (by simp [hvis, hal]), if_neg (by simp [hpdf]), hpc]

set_option maxHeartbeats 1000000 in
theorem crawlLoop_err (env : CrawlEnv) (baseDomain : String) (disallowedPaths : List String)
    (companyName jobId : String) {st : CrawlState} {u : Url} {rest : List Url}
    {content e : String}
    (h : st.toVisit = u :: rest) (hb : ¬ env.maxPages ≤ st.pageCount)
    (hvis : u ∉ st.visited) (hal : is_allowed_url env.respectRobots u disallowedPaths = true)
    (hpdf : urlEndsWithPdf u = false) (hpc : env.pageContent u = some content)
    (he : env.hrefs content = Except.error e) :
    crawlLoop env baseDomain disallowedPaths companyName jobId st =
      (htmlBranch env companyName jobId (markVisited st u rest) u, some e) := by
  rw [crawlLoop]
  split
  · next heq => rw [heq] at h; cases h
  · next u2 rest2 heq =>
    rw [heq] at h
    injection h with h1 h2
    subst h1; subst h2
    rw [dif_neg hb, if_neg (by simp [hvis, hal]), if_neg (by simp [hpdf])]
    simp only [hpc]
    simp only [he]

set_option maxHeartbeats 1000000 in
theorem crawlLoop_links (env : CrawlEnv) (baseDomain : String) (disallowedPaths : List String)
    (companyName jobId : String) {st : CrawlState} {u : Url} {rest : List Url}
    {content : String} {anchors : List String}
    (h : st.toVisit = u :: rest) (hb : ¬ env.maxPages ≤ st.pageCount)
    (hvis : u ∉ st.visited) (hal : is_allowed_url env.respectRobots u disallowedPaths = true)
    (hpdf : urlEndsWithPdf u = false) (hpc : env.pageContent u = some content)
    (he : env.hrefs content = Except.ok anchors) :
    crawlLoop env baseDomain disallowedPaths companyName jobId st =
      crawlLoop env baseDomain disallowedPaths companyName jobId
        (let st2 := htmlBranch env companyName jobId (markVisited st u rest) u
         let inserted := insertLinks env baseDomain disallowedPaths st2.visited
           (extract_links env anchors u) st2.toVisit st2.enqueueLog
         { st2 with toVisit := inserted.1, enqueueLog := inserted.2 }) := by
  rw [crawlLoop]
  split
  · next heq => rw [heq] at h; cases h
  · next u2 rest2 heq =>
    rw [heq] at h
    injection h with h1 h2
    subst h1; subst h2
    rw [dif_neg hb, if_neg (by simp [hvis, hal]), if_neg (by simp [hpdf])]
    simp only [hpc]
    simp only [he]

theorem crawlSucc_of_links {env : CrawlEnv} (baseDomain : String) (disallowedPaths : List String)
    {u : Url} {content : String} {anchors : List String}
    (hpdf : urlEndsWithPdf u = false) (hpc : env.pageContent u = some content)
    (he : env.hrefs content = Except.ok anchors) :
    crawlSucc env baseDomain disallowedPaths u =
      (extract_links env anchors u).filter
        (fun l => is_same_domain l baseDomain && is_allowed_url env.respectRobots l disallowedPaths) := by
  unfold crawlSucc
  rw [if_neg (by simp [hpdf])]
  simp only [hpc]
  simp only [he]

theorem crawlSucc_pdf {env : CrawlEnv} (baseDomain : String) (disallowedPaths : List String)
    {u : Url} (hpdf : urlEndsWithPdf u = true) :
    crawlSucc env baseDomain disallowedPaths u = [] := by
  unfold crawlSucc
  rw [if_pos hpdf]

theorem crawlSucc_nocontent {env : CrawlEnv} (baseDomain : String) (disallowedPaths : List String)
    {u : Url} (hpdf : urlEndsWithPdf u = false) (hpc : env.pageContent u = none) :
    crawlSucc env baseDomain disallowedPaths u = [] := by
  unfold crawlSucc
  rw [if_neg (by simp [hpdf])]
  simp only [hpc]

theorem crawlSucc_err {env : CrawlEnv} (baseDomain : String) (disallowedPaths : List String)
    {u : Url} {content e : String} (hpdf : urlEndsWithPdf u = false)
    (hpc : env.pageContent u = some content) (he : env.hrefs content = Except.error e) :
    crawlSucc env baseDomain disallowedPaths u = [] := by
  unfold crawlSucc
  rw [if_neg (by simp [hpdf])]
  simp only [hpc]
  simp only [he]

theorem loopInv_skip {env : CrawlEnv} {baseDomain : String} {disallowedPaths : List String}
    {website : Url} {st : CrawlState} {u : Url} {rest : List Url}
    (hinv : LoopInv env baseDomain disallowedPaths website st) (h : st.toVisit = u :: rest)
    (hskip : u ∈ st.visited ∨ is_allowed_url env.respectRobots u disallowedPaths = false) :
    LoopInv env baseDomain disallowedPaths website { st with toVisit := rest } := by
  obtain ⟨vn, tn, ce, cl, en, ts, vs, ec, fn, fs, cls, ri, va, ed⟩ := hinv
  rw [h] at tn
  refine ⟨vn, (List.nodup_cons.mp tn).2, ce, cl, en, ?_, vs, ?_, fn, fs, ?_, ?_, va, ed⟩
  · intro x hx
    exact ts x (by rw [h]; exact List.mem_cons_of_mem _ hx)
  · intro x hx
    rcases ec x hx with hxv | hxt | hxa
    · exact Or.inl hxv
    · rw [h] at hxt
      rcases List.mem_cons.mp hxt with heq | hxt
      · subst heq
        rcases hskip with hs | hs
        · exact Or.inl hs
        · exact Or.inr (Or.inr hs)
      · exact Or.inr (Or.inl hxt)
    · exact Or.inr (Or.inr hxa)
  · intro v hv z hz
    rcases cls v hv z hz with hzv | hzt
    · exact Or.inl hzv
    · rw [h] at hzt
      rcases List.mem_cons.mp hzt with heq | hzt
      · subst heq
        rcases hskip with hs | hs
        · exact Or.inl hs
        · rw [(crawlSucc_allowed hz).2] at hs
          cases hs
      · exact Or.inr hzt
  · rcases ri with hw | hw | hw
    · exact Or.inl hw
    · rw [h] at hw
      rcases List.mem_cons.mp hw with heq | hw
      · subst heq
        rcases hskip with hs | hs
        · exact Or.inl hs
        · exact Or.inr (Or.inr hs)
      · exact Or.inr (Or.inl hw)
    · exact Or.inr (Or.inr hw)

theorem loopInv_visit_nolinks {env : CrawlEnv} {baseDomain : String}
    {disallowedPaths : List String} {website : Url} {st : CrawlState} {u : Url} {rest : List Url}
    (hinv : LoopInv env baseDomain disallowedPaths website st) (h : st.toVisit = u :: rest)
    (hb : ¬ env.maxPages ≤ st.pageCount) (hvis : u ∉ st.visited)
    (hal : is_allowed_url env.respectRobots u disallowedPaths = true)
    (hsucc : crawlSucc env baseDomain disallowedPaths u = [])
    (st' : CrawlState)
    (hv' : st'.visited = u :: st.visited) (ht' : st'.toVisit = rest)
    (hc' : st'.pageCount = st.pageCount + 1)
    (hf' : st'.fetchLog = st.fetchLog ++ [u]) (he' : st'.enqueueLog = st.enqueueLog) :
    LoopInv env baseDomain disallowedPaths website st' := by
  obtain ⟨vn, tn, ce, cl, en, ts, vs, ec, fn, fs, cls, ri, va, ed⟩ := hinv
  rw [h] at tn
  constructor
  · rw [hv']
    exact List.nodup_cons.mpr ⟨hvis, vn⟩
  · rw [ht']
    exact (List.nodup_cons.mp tn).2
  · rw [hc', hv']
    simp [ce]
  · rw [hc']
    omega
  · rw [he']
    exact en
  · intro x hx
    rw [ht'] at hx
    rw [he']
    exact ts x (by rw [h]; exact List.mem_cons_of_mem _ hx)
  · intro x hx
    rw [hv'] at hx
    rw [he']
    rcases List.mem_cons.mp hx with heq | hx
    · subst heq
      exact ts x (by rw [h]; exact List.mem_cons_self _ _)
    · exact vs x hx
  · intro x hx
    rw [he'] at hx
    rw [hv', ht']
    rcases ec x hx with hxv | hxt | hxa
    · exact Or.inl (List.mem_cons_of_mem _ hxv)
    · rw [h] at hxt
      rcases List.mem_cons.mp hxt with heq | hxt
      · subst heq
        exact Or.inl (List.mem_cons_self _ _)
      · exact Or.inr (Or.inl hxt)
    · exact Or.inr (Or.inr hxa)
  · rw [hf']
    refine List.Nodup.append fn (List.nodup_singleton u) ?_
    intro x hx1 hx2
    simp at hx2
    subst hx2
    exact hvis (fs x hx1)
  · intro x hx
    rw [hf'] at hx
    rw [hv']
    rcases List.mem_append.mp hx with hx | hx
    · exact List.mem_cons_of_mem _ (fs x hx)
    · simp at hx
      subst hx
      exact List.mem_cons_self _ _
  · intro v hv z hz
    rw [hv'] at hv
    rw [hv', ht']
    rcases List.mem_cons.mp hv with heq | hv
    · subst heq
      rw [hsucc] at hz
      cases hz
    · rcases cls v hv z hz with hzv | hzt
      · exact Or.inl (List.mem_cons_of_mem _ hzv)
      · rw [h] at hzt
        rcases List.mem_cons.mp hzt with heq | hzt
        · subst heq
          exact Or.inl (List.mem_cons_self _ _)
        · exact Or.inr hzt
  · rw [hv', ht']
    rcases ri with hw | hw | hw
    · exact Or.inl (List.mem_cons_of_mem _ hw)
    · rw [h] at hw
      rcases List.mem_cons.mp hw with heq | hw
      · rw [heq]
        exact Or.inl (List.mem_cons_self _ _)
      · exact Or.inr (Or.inl hw)
    · exact Or.inr (Or.inr hw)
  · intro x hx
    rw [hv'] at hx
    rcases List.mem_cons.mp hx with heq | hx
    · subst heq
      exact hal
    · exact va x hx
  · intro x hx
    rw [he'] at hx
    exact ed x hx

theorem loopInv_visit_links {env : CrawlEnv} {baseDomain : String}
    {disallowedPaths : List String} {website : Url} {st : CrawlState} {u : Url} {rest : List Url}
    {content : String} {anchors : List String} (companyName jobId : String)
    (hinv : LoopInv env baseDomain disallowedPaths website st) (h : st.toVisit = u :: rest)
    (hb : ¬ env.maxPages ≤ st.pageCount) (hvis : u ∉ st.visited)
    (hal : is_allowed_url env.respectRobots u disallowedPaths = true)
    (hpdf : urlEndsWithPdf u = false) (hpc : env.pageContent u = some content)
    (he : env.hrefs content = Except.ok anchors) :
    LoopInv env baseDomain disallowedPaths website
      (let st2 := htmlBranch env companyName jobId (markVisited st u rest) u
       let inserted := insertLinks env baseDomain disallowedPaths st2.visited
         (extract_links env anchors u) st2.toVisit st2.enqueueLog
       { st2 with toVisit := inserted.1, enqueueLog := inserted.2 }) := by
  obtain ⟨vn, tn, ce, cl, en, ts, vs, ec, fn, fs, cls, ri, va, ed⟩ := hinv
  rw [h] at tn
  have trn : rest.Nodup := (List.nodup_cons.mp tn).2
  simp only [htmlBranch, markVisited]
  have hcasespre : ∀ x ∈ st.enqueueLog, x ∈ u :: st.visited ∨ x ∈ rest ∨
      is_allowed_url env.respectRobots x disallowedPaths = false := by
    intro x hx
    rcases ec x hx with hxv | hxt | hxa
    · exact Or.inl (List.mem_cons_of_mem _ hxv)
    · rw [h] at hxt
      rcases List.mem_cons.mp hxt with heq | hxt
      · subst heq
        exact Or.inl (List.mem_cons_self _ _)
      · exact Or.inr (Or.inl hxt)
    · exact Or.inr (Or.inr hxa)
  have hlog := insertLinks_log_inv env baseDomain disallowedPaths (u :: st.visited)
    (extract_links env anchors u) rest st.enqueueLog en hcasespre
  constructor
  · exact List.nodup_cons.mpr ⟨hvis, vn⟩
  · exact insertLinks_tv_nodup env baseDomain disallowedPaths (u :: st.visited)
      (extract_links env anchors u) rest st.enqueueLog trn
  · simp [ce]
  · show st.pageCount + 1 ≤ env.maxPages
    omega
  · exact hlog.1
  · intro x hx
    refine insertLinks_tv_sub_log env baseDomain disallowedPaths (u :: st.visited)
      (extract_links env anchors u) rest st.enqueueLog ?_ x hx
    intro y hy
    exact ts y (by rw [h]; exact List.mem_cons_of_mem _ hy)
  · intro x hx
    refine insertLinks_log_mono env baseDomain disallowedPaths (u :: st.visited)
      (extract_links env anchors u) rest st.enqueueLog x ?_
    rcases List.mem_cons.mp hx with heq | hx
    · subst heq
      exact ts x (by rw [h]; exact List.mem_cons_self _ _)
    · exact vs x hx
  · exact hlog.2
  · refine List.Nodup.append fn (List.nodup_singleton u) ?_
    intro x hx1 hx2
    simp at hx2
    subst hx2
    exact hvis (fs x hx1)
  · intro x hx
    rcases List.mem_append.mp hx with hx | hx
    · exact List.mem_cons_of_mem _ (fs x hx)
    · simp at hx
      subst hx
      exact List.mem_cons_self _ _
  · intro v hv z hz
    rcases List.mem_cons.mp hv with heq | hv
    · subst heq
      rw [crawlSucc_of_links baseDomain disallowedPaths hpdf hpc he] at hz
      have hzmem := List.mem_of_mem_filter hz
      have hzprop := List.of_mem_filter hz
      simp at hzprop
      exact insertLinks_complete env baseDomain disallowedPaths _ _ rest st.enqueueLog
        z hzmem hzprop.1 hzprop.2
    · rcases cls v hv z hz with hzv | hzt
      · exact Or.inl (List.mem_cons_of_mem _ hzv)
      · rw [h] at hzt
        rcases List.mem_cons.mp hzt with heq | hzt
        · subst heq
          exact Or.inl (List.mem_cons_self _ _)
        · exact Or.inr (insertLinks_tv_mono env baseDomain disallowedPaths (u :: st.visited)
            (extract_links env anchors u) rest st.enqueueLog z hzt)
  · rcases ri with hw | hw | hw
    · exact Or.inl (List.mem_cons_of_mem _ hw)
    · rw [h] at hw
      rcases List.mem_cons.mp hw with heq | hw
      · rw [heq]
        exact Or.inl (List.mem_cons_self _ _)
      · exact Or.inr (Or.inl (insertLinks_tv_mono env baseDomain disallowedPaths
          (u :: st.visited) (extract_links env anchors u) rest st.enqueueLog website hw))
    · exact Or.inr (Or.inr hw)
  · intro x hx
    rcases List.mem_cons.mp hx with heq | hx
    · subst heq
      exact hal
    · exact va x hx
  · exact insertLinks_domain env baseDomain disallowedPaths (u :: st.visited)
      (extract_links env anchors u) website rest st.enqueueLog ed

theorem not_skip_cases {u : Url} {visited : List Url} {b : Bool}
    (hcond : ¬(u ∈ visited ∨ b = false)) : u ∉ visited ∧ b = true := by
  constructor
  · intro hx
    exact hcond (Or.inl hx)
  · cases hB : b
    · exact absurd (Or.inr hB) hcond
    · rfl

theorem crawlLoop_preserves (env : CrawlEnv) (baseDomain : String) (disallowedPaths : List String)
    (companyName jobId : String) (website : Url) (st : CrawlState)
    (hinv : LoopInv env baseDomain disallowedPaths website st) :
    LoopInv env baseDomain disallowedPaths website
      (crawlLoop env baseDomain disallowedPaths companyName jobId st).1 := by
  revert hinv
  induction st using crawlLoop.induct env baseDomain disallowedPaths companyName jobId with
  | case1 st h =>
    intro hinv
    rw [crawlLoop_empty env baseDomain disallowedPaths companyName jobId h]
    exact hinv
  | case2 st u rest h hb =>
    intro hinv
    rw [crawlLoop_budget env baseDomain disallowedPaths companyName jobId h hb]
    exact hinv
  | case3 st u rest h hb hskip ih =>
    intro hinv
    rw [crawlLoop_skip env baseDomain disallowedPaths companyName jobId h hb hskip]
    exact ih (loopInv_skip hinv h hskip)
  | case4 st u rest h hb hcond st1 hpdf ih =>
    intro hinv
    obtain ⟨hvis, hal⟩ := not_skip_cases hcond
    rw [crawlLoop_pdf env baseDomain disallowedPaths companyName jobId h hb hvis hal hpdf]
    exact ih (loopInv_visit_nolinks hinv h hb hvis hal
      (crawlSucc_pdf baseDomain disallowedPaths hpdf) _ rfl rfl rfl rfl rfl)
  | case5 st u rest h hb hcond st1 hpdf hpc ih =>
    intro hinv
    obtain ⟨hvis, hal⟩ := not_skip_cases hcond
    have hpdf2 : urlEndsWithPdf u = false := by simpa using hpdf
    rw [crawlLoop_nocontent env baseDomain disallowedPaths companyName jobId h hb hvis hal
      hpdf2 hpc]
    exact ih (loopInv_visit_nolinks hinv h hb hvis hal
      (crawlSucc_nocontent baseDomain disallowedPaths hpdf2 hpc) _ rfl rfl rfl rfl rfl)
  | case6 st u rest h hb hcond hpdf content hpc e herr =>
    intro hinv
    obtain ⟨hvis, hal⟩ := not_skip_cases hcond
    have hpdf2 : urlEndsWithPdf u = false := by simpa using hpdf
    rw [crawlLoop_err env baseDomain disallowedPaths companyName jobId h hb hvis hal hpdf2
      hpc herr]
    exact loopInv_visit_nolinks hinv h hb hvis hal
      (crawlSucc_err baseDomain disallowedPaths hpdf2 hpc herr) _ rfl rfl rfl rfl rfl
  | case7 st u rest h hb hcond st1 hpdf content hpc st2 anchors he links inserted ih =>
    intro hinv
    obtain ⟨hvis, hal⟩ := not_skip_cases hcond
    have hpdf2 : urlEndsWithPdf u = false := by simpa using hpdf
    rw [crawlLoop_links env baseDomain disallowedPaths companyName jobId h hb hvis hal hpdf2
      hpc he]
    exact ih (loopInv_visit_links companyName jobId hinv h hb hvis hal hpdf2 hpc he)

theorem crawlLoop_exits (env : CrawlEnv) (baseDomain : String) (disallowedPaths : List String)
    (companyName jobId : String) (st : CrawlState)
    (hnone : (crawlLoop env baseDomain disallowedPaths companyName jobId st).2 = none) :
    (crawlLoop env baseDomain disallowedPaths companyName jobId st).1.toVisit = [] ∨
      env.maxPages ≤ (crawlLoop env baseDomain disallowedPaths companyName jobId st).1.pageCount := by
  revert hnone
  induction st using crawlLoop.induct env baseDomain disallowedPaths companyName jobId with
  | case1 st h =>
    rw [crawlLoop_empty env baseDomain disallowedPaths companyName jobId h]
    intro _
    exact Or.inl h
  | case2 st u rest h hb =>
    rw [crawlLoop_budget env baseDomain disallowedPaths companyName jobId h hb]
    intro _
    exact Or.inr hb
  | case3 st u rest h hb hskip ih =>
    rw [crawlLoop_skip env baseDomain disallowedPaths companyName jobId h hb hskip]
    exact ih
  | case4 st u rest h hb hcond st1 hpdf ih =>
    obtain ⟨hvis, hal⟩ := not_skip_cases hcond
    rw [crawlLoop_pdf env baseDomain disallowedPaths companyName jobId h hb hvis hal hpdf]
    exact ih
  | case5 st u rest h hb hcond st1 hpdf hpc ih =>
    obtain ⟨hvis, hal⟩ := not_skip_cases hcond
    have hpdf2 : urlEndsWithPdf u = false := by simpa using hpdf
    rw [crawlLoop_nocontent env baseDomain disallowedPaths companyName jobId h hb hvis hal
      hpdf2 hpc]
    exact ih
  | case6 st u rest h hb hcond hpdf content hpc e herr =>
    obtain ⟨hvis, hal⟩ := not_skip_cases hcond
    have hpdf2 : urlEndsWithPdf u = false := by simpa using hpdf
    rw [crawlLoop_err env baseDomain disallowedPaths companyName jobId h hb hvis hal hpdf2
      hpc herr]
    intro hx
    cases hx
  | case7 st u rest h hb hcond st1 hpdf content hpc st2 anchors he links inserted ih =>
    obtain ⟨hvis, hal⟩ := not_skip_cases hcond
    have hpdf2 : urlEndsWithPdf u = false := by simpa using hpdf
    rw [crawlLoop_links env baseDomain disallowedPaths companyName jobId h hb hvis hal hpdf2
      hpc he]
    exact ih

theorem reach_subset_visited {env : CrawlEnv} {baseDomain : String}
    {disallowedPaths : List String} {website : Url} {st : CrawlState}
    (hinv : LoopInv env baseDomain disallowedPaths website st) (hEmpty : st.toVisit = []) :
    ∀ x, Reach env baseDomain disallowedPaths website x → x ∈ st.visited := by
  intro x hx
  induction hx with
  | root hroot =>
    rcases hinv.rootInv with hv | ht | hna
    · exact hv
    · rw [hEmpty] at ht
      cases ht
    · rw [hroot] at hna
      cases hna
  | step hu hz ih =>
    rcases hinv.closure _ ih _ hz with hv | ht
    · exact hv
    · rw [hEmpty] at ht
      cases ht

/-- The aggregate result dictionary returned on crawl success. -/
structure CrawlResult where
  company_name : String
  job_id : String
  website : Url
  pages_crawled : Nat
  pdf_files : List String
  html_files : List String
  markdown_files : List String
deriving DecidableEq, Repr

/-- The (success, payload) pair crawl_website returns: (True, results) or
(False, str(exception)). -/
inductive CrawlRet where
  | success (r : CrawlResult)
  | failure (msg : String)
deriving DecidableEq, Repr

/-- Full outcome of crawl_website. result is an Except because a
setup_browser exception propagates out uncaught; closed records whether
close_browser ran; finalState is the ghost loop state (None when setup
failed before the loop). -/
structure CrawlOutcome where
  result : Except String CrawlRet
  closed : Bool
  finalState : Option CrawlState
deriving Repr

/-- Initial traversal state: frontier seeded with the root website. -/
def initState (website : Url) : CrawlState :=
  { visited := []
    toVisit := [website]
    pageCount := 0
    pdfFiles := []
    htmlFiles := []
    markdownFiles := []
    fetchLog := []
    enqueueLog := [website]
    savedDocs := [] }

theorem loopInv_init (env : CrawlEnv) (baseDomain : String) (disallowedPaths : List String)
    (website : Url) : LoopInv env baseDomain disallowedPaths website (initState website) := by
  constructor <;> simp [initState]

/-- The disallowed-path rules the session works with: the fetched
robots.txt rules when compliance is configured, else none. -/
def crawlDisallowed (env : CrawlEnv) : List String :=
  if env.respectRobots then env.robotsRules else []

/-- Embeds crawl_website: compute the base domain, fetch robots rules if
configured, set up the browser (uncaught on failure), run the loop under
try/except/finally, and always close the browser once it was opened. -/
def crawl_website (env : CrawlEnv) (website : Url) (companyName jobId : String) : CrawlOutcome :=
  let baseDomain := website.netloc
  let disallowedPaths := crawlDisallowed env
  match setup_browser env with
  | Except.error e => { result := Except.error e, closed := false, finalState := none }
  | Except.ok _ =>
    let out := crawlLoop env baseDomain disallowedPaths companyName jobId (initState website)
    match out.2 with
    | some e =>
      { result := Except.ok (CrawlRet.failure e), closed := true, finalState := some out.1 }
    | none =>
      { result := Except.ok (CrawlRet.success
          { company_name := companyName
            job_id := jobId
            website := website
            pages_crawled := out.1.visited.length
            pdf_files := out.1.pdfFiles
            html_files := out.1.htmlFiles
            markdown_files := out.1.markdownFiles })
        closed := true
        finalState := some out.1 }

theorem crawl_website_setup_err {env : CrawlEnv} {e : String}
    (hsb : setup_browser env = Except.error e) (website : Url) (companyName jobId : String) :
    crawl_website env website companyName jobId =
      { result := Except.error e, closed := false, finalState := none } := by
  unfold crawl_website
  rw [hsb]

theorem crawl_website_run_none {env : CrawlEnv} {b : BrowserContext}
    (hsb : setup_browser env = Except.ok b) (website : Url) (companyName jobId : String)
    {st : CrawlState}
    (hloop : crawlLoop env website.netloc (crawlDisallowed env) companyName jobId
      (initState website) = (st, none)) :
    crawl_website env website companyName jobId =
      { result := Except.ok (CrawlRet.success
          { company_name := companyName
            job_id := jobId
            website := website
            pages_crawled := st.visited.length
            pdf_files := st.pdfFiles
            html_files := st.htmlFiles
            markdown_files := st.markdownFiles })
        closed := true
        finalState := some st } := by
  unfold crawl_website
  rw [hsb]
  simp only [hloop]

theorem crawl_website_run_err {env : CrawlEnv} {b : BrowserContext}
    (hsb : setup_browser env = Except.ok b) (website : Url) (companyName jobId : String)
    {st : CrawlState} {e : String}
    (hloop : crawlLoop env website.netloc (crawlDisallowed env) companyName jobId
      (initState website) = (st, some e)) :
    crawl_website env website companyName jobId =
      { result := Except.ok (CrawlRet.failure e), closed := true, finalState := some st } := by
  unfold crawl_website
  rw [hsb]
  simp only [hloop]

theorem crawl_finalState_inv {env : CrawlEnv} {website : Url} {companyName jobId : String}
    {st : CrawlState}
    (hfs : (crawl_website env website companyName jobId).finalState = some st) :
    LoopInv env website.netloc (crawlDisallowed env) website st := by
  cases hsb : setup_browser env with
  | error e =>
    rw [crawl_website_setup_err hsb website companyName jobId] at hfs
    cases hfs
  | ok b =>
    have hpres := crawlLoop_preserves env website.netloc (crawlDisallowed env) companyName jobId
      website (initState website)
      (loopInv_init env website.netloc (crawlDisallowed env) website)
    cases hloop : crawlLoop env website.netloc (crawlDisallowed env) companyName jobId
      (initState website) with
    | mk st0 exc =>
      rw [hloop] at hpres
      cases exc with
      | none =>
        rw [crawl_website_run_none hsb website companyName jobId hloop] at hfs
        injection hfs with hfs
        subst hfs
        exact hpres
      | some e =>
        rw [crawl_website_run_err hsb website companyName jobId hloop] at hfs
        injection hfs with hfs
        subst hfs
        exact hpres

theorem crawl_success_final {env : CrawlEnv} {website : Url} {companyName jobId : String}
    {r : CrawlResult}
    (hres : (crawl_website env website companyName jobId).result =
      Except.ok (CrawlRet.success r)) :
    ∃ st : CrawlState,
      crawlLoop env website.netloc (crawlDisallowed env) companyName jobId
        (initState website) = (st, none) ∧
      LoopInv env website.netloc (crawlDisallowed env) website st ∧
      r.pages_crawled = st.visited.length ∧ r.pdf_files = st.pdfFiles := by
  cases hsb : setup_browser env with
  | error e =>
    rw [crawl_website_setup_err hsb website companyName jobId] at hres
    cases hres
  | ok b =>
    have hpres := crawlLoop_preserves env website.netloc (crawlDisallowed env) companyName jobId
      website (initState website)
      (loopInv_init env website.netloc (crawlDisallowed env) website)
    cases hloop : crawlLoop env website.netloc (crawlDisallowed env) companyName jobId
      (initState website) with
    | mk st0 exc =>
      rw [hloop] at hpres
      cases exc with
      | none =>
        rw [crawl_website_run_none hsb website companyName jobId hloop] at hres
        injection hres with hres
        injection hres with hres
        subst hres
        exact ⟨st0, rfl, hpres, rfl, rfl⟩
      | some e =>
        rw [crawl_website_run_err hsb website companyName jobId hloop] at hres
        injection hres with hres
        cases hres

/-- Outcome of CustomCrawlerWorker.process_job: the (success, result)
pair. All exceptions, including the ValueError propagating out of
setup_browser, are caught and turned into (False, str(e)). -/
def customWorkerProcessJob (env : CrawlEnv) (website : Url) (companyName jobId : String) :
    Bool × CrawlOutcome :=
  let out := crawl_website env website companyName jobId
  match out.result with
  | Except.error _ => (false, out)
  | Except.ok (CrawlRet.failure _) => (false, out)
  | Except.ok (CrawlRet.success _) => (true, out)

/-- One message-handling step of CustomCrawlerWorker.run: process the
job, then delete the message; any exception in the inner loop body is
caught and the worker keeps polling. -/
structure CustomWorkerStep where
  jobSuccess : Bool
  messageDeleted : Bool
  workerAborted : Bool
deriving DecidableEq, Repr

/-- Embeds the per-message body of CustomCrawlerWorker.run: process_job
never raises, the message is deleted unconditionally afterwards, and the
surrounding while-loop continues either way. -/
def customWorkerStep (env : CrawlEnv) (website : Url) (companyName jobId : String) :
    CustomWorkerStep :=
  let r := customWorkerProcessJob env website companyName jobId
  { jobSuccess := r.1
    messageDeleted := true
    workerAborted := false }

/-- A queue message / job dictionary for the tier-1 pipeline. status and
firecrawl_failure_reason are absent keys until set. -/
structure FcJob where
  job_id : String
  company_name : String
  website : String
  status : Option String
  firecrawl_failure_reason : Option String
deriving DecidableEq, Repr

/-- Environment of the tier-1 worker: the Firecrawl scrape outcome
(exception, falsy result, or results) and SQS transport outcomes. -/
structure FcEnv where
  scrape : Except String (Option String)
  sendOk : Bool
  deleteOk : Bool

/-- Result classification of FirecrawlWorker.process_job. -/
inductive FcOutcome where
  | ok (results : String)
  | fail (reason : String)
deriving DecidableEq, Repr

/-- Embeds FirecrawlWorker.process_job: success on truthy results, a
fixed reason on a falsy result, str(e) on an exception. -/
def fc_process_job (env : FcEnv) : FcOutcome :=
  match env.scrape with
  | Except.ok (some results) => FcOutcome.ok results
  | Except.ok none => FcOutcome.fail "Failed to process with Firecrawl"
  | Except.error e => FcOutcome.fail e

/-- Embeds QueueService.send_to_custom_crawler_queue: when the optional
failure_reason argument is truthy (present and non-empty), the job is
annotated with firecrawl_failure_reason and status 'firecrawl_failed'
before sending; a send exception is caught, giving False and no message
on the queue. Returns (return value, message enqueued). -/
def send_to_custom_crawler_queue (env : FcEnv) (job : FcJob) (failureReason : Option String) :
    Bool × Option FcJob :=
  let job' :=
    match failureReason with
    | some r =>
      if r ≠ "" then
        { job with firecrawl_failure_reason := some r, status := some "firecrawl_failed" }
      else
        job
    | none => job
  if env.sendOk then (true, some job') else (false, none)

/-- Per-message outcome of the tier-1 worker loop: what reached the
fallback queue, and whether the first-tier message was deleted. -/
structure FcStep where
  sentToFallback : List FcJob
  messageDeleted : Bool
deriving DecidableEq, Repr

/-- Embeds the result-handling block of FirecrawlWorker.run for one
message: on failure the job is forwarded to the fallback queue (the send
return value is ignored), then the message is deleted; a delete exception
is caught by the surrounding except, leaving the message undeleted. -/
def fc_handle_message (env : FcEnv) (job : FcJob) : FcStep :=
  match fc_process_job env with
  | FcOutcome.ok _ =>
    { sentToFallback := [], messageDeleted := env.deleteOk }
  | FcOutcome.fail reason =>
    let sent := send_to_custom_crawler_queue env job (some reason)
    { sentToFallback := sent.2.toList, messageDeleted := env.deleteOk }

/-- The ASCII characters matched by Python's regex class \s. -/
def isPyWs (c : Char) : Bool :=
  c = ' ' || c = '\t' || c = '\n' || c = '\r' || c = '\x0b' || c = '\x0c'

/-- Greedy match of the regex tail \s*\n against a prefix of the list:
consumes the longest whitespace-only prefix ending in a newline and
returns the remainder; None when no such prefix exists. This is the
continuation re.sub tries after the leading \n of r'\n\s*\n'. -/
def grabNlTail : List Char → Option (List Char)
  | [] => none
  | c :: cs =>
    if isPyWs c then
      match grabNlTail cs with
      | some r => some r
      | none => if c = '\n' then some cs else none
    else none

theorem grabNlTail_length {l r : List Char} (h : grabNlTail l = some r) :
    r.length < l.length := by
  induction l generalizing r with
  | nil => simp [grabNlTail] at h
  | cons c cs ih =>
    rw [grabNlTail] at h
    by_cases hw : isPyWs c = true
    · rw [if_pos hw] at h
      cases hg : grabNlTail cs with
      | some r2 =>
        rw [hg] at h
        injection h with h
        subst h
        have := ih hg
        simp only [List.length_cons]
        omega
      | none =>
        rw [hg] at h
        by_cases hn : c = '\n'
        · rw [if_pos hn] at h
          injection h with h
          subst h
          simp
        · rw [if_neg hn] at h
          cases h
    · rw [if_neg hw] at h
      cases h

/-- Embeds re.sub(r'\n\s*\n', '\n\n', text): left-to-right scan, each
greedy match of a newline followed by \s*\n replaced by two newlines,
scanning resuming after the match. -/
def sub1 : List Char → List Char
  | [] => []
  | c :: cs =>
    if c = '\n' then
      match hg : grabNlTail cs with
      | some r => '\n' :: '\n' :: sub1 r
      | none => c :: sub1 cs
    else c :: sub1 cs
termination_by l => l.length
decreasing_by
  · simp
    have := grabNlTail_length hg
    omega
  · simp
  · simp

/-- Embeds re.sub(r' +', ' ', text): every run of spaces becomes one
space, realized one character at a time — a space immediately followed
by another space is dropped, which replaces each space run by a single
space exactly as the regex substitution does. -/
def sub2 : List Char → List Char
  | [] => []
  | [c] => [c]
  | c :: d :: cs => if c = ' ' ∧ d = ' ' then sub2 (d :: cs) else c :: sub2 (d :: cs)

/-- Embeds the whitespace clean-up of html_to_markdown: collapse blank
runs between newlines, then collapse space runs. -/
def collapseWs (s : String) : String :=
  String.mk (sub2 (sub1 s.data))

/-- Token stream of the html.parser model: character data (with
character references decoded), start tags and end tags. -/
inductive Tok where
  | txt (c : Char)
  | tagOpen (name : String)
  | tagClose (name : String)
deriving DecidableEq, Repr

/-- Characters accepted inside a tag name. -/
def isTagNameChar (c : Char) : Bool :=
  c.isAlpha || c.isDigit

/-- Simplified model of html.parser's tokenizer as BeautifulSoup drives
it: a '<' followed by a letter (or by '/' and a letter) up to the next
'>' is a tag, any other '<' is character data; the named character
references amp, lt and gt are decoded; everything else is character
data. -/
def lexHtml : List Char → List Tok
  | [] => []
  | '<' :: rest =>
    match rest with
    | '/' :: r2 =>
      if (r2.takeWhile isTagNameChar) ≠ [] ∧ '>' ∈ r2 then
        Tok.tagClose (strToLower (String.mk (r2.takeWhile isTagNameChar))) ::
          lexHtml ((r2.dropWhile (fun c => c ≠ '>')).drop 1)
      else
        Tok.txt '<' :: lexHtml ('/' :: r2)
    | c :: r2 =>
      if c.isAlpha ∧ '>' ∈ (c :: r2) then
        Tok.tagOpen (strToLower (String.mk ((c :: r2).takeWhile isTagNameChar))) ::
          lexHtml (((c :: r2).dropWhile (fun d => d ≠ '>')).drop 1)
      else
        Tok.txt '<' :: lexHtml (c :: r2)
    | [] => [Tok.txt '<']
  | '&' :: rest =>
    if "amp;".data.isPrefixOf rest then Tok.txt '&' :: lexHtml (rest.drop 4)
    else if "lt;".data.isPrefixOf rest then Tok.txt '<' :: lexHtml (rest.drop 3)
    else if "gt;".data.isPrefixOf rest then Tok.txt '>' :: lexHtml (rest.drop 3)
    else Tok.txt '&' :: lexHtml rest
  | c :: rest => Tok.txt c :: lexHtml rest
termination_by l => l.length
decreasing_by
  all_goals simp
  all_goals try omega
  · have h1 : (r2.dropWhile (fun c => !decide (c = '>'))).length ≤ r2.length :=
      List.Sublist.length_le (List.dropWhile_sublist _)
    omega
  · have h1 : ((c :: r2).dropWhile (fun d => !decide (d = '>'))).length ≤ (c :: r2).length :=
      List.Sublist.length_le (List.dropWhile_sublist _)
    simp only [List.length_cons] at h1
    omega

/-- Collects the NavigableString nodes of the parsed document in order,
dropping the raw content of script and style elements (which decompose
removes); maximal character-data runs between tags form one string. The
second argument is the name of the script/style element being skipped,
the third the reversed current character run. -/
def collectStrings : List Tok → Option String → List Char → List String
  | [], _, cur => if cur.isEmpty then [] else [String.mk cur.reverse]
  | t :: ts, some n, cur =>
    match t with
    | Tok.tagClose m => if m = n then collectStrings ts none cur else collectStrings ts (some n) cur
    | _ => collectStrings ts (some n) cur
  | t :: ts, none, cur =>
    match t with
    | Tok.txt c => collectStrings ts none (c :: cur)
    | Tok.tagOpen m =>
      let skip : Option String := if m = "script" ∨ m = "style" then some m else none
      if cur.isEmpty then collectStrings ts skip []
      else String.mk cur.reverse :: collectStrings ts skip []
    | Tok.tagClose _ =>
      if cur.isEmpty then collectStrings ts none []
      else String.mk cur.reverse :: collectStrings ts none []

/-- Embeds soup.get_text(separator='\n') after decomposing the
script/style/meta/link elements: the string nodes joined by newlines
(meta and link are void elements contributing no text, so only
script/style need their contents dropped). -/
def stripAndGetText (s : String) : String :=
  String.intercalate "\n" (collectStrings (lexHtml s.data) none [])

/-- The plain-text extraction pipeline of convert_html_to_markdown and
html_to_markdown applied to an HTML string: parse, strip non-content
tags, take the text with newline separators, collapse whitespace. -/
def extractText (s : String) : String :=
  collapseWs (stripAndGetText s)

/-! Concrete fixtures used by counterexamples and witnesses: a tiny site
whose root page links to a single cross-domain PDF. -/

def uA : Url := { scheme := "http", netloc := "a.example", path := "/", query := "" }

def uD : Url := { scheme := "http", netloc := "other.example", path := "/doc.pdf", query := "" }

def uPriv : Url := { scheme := "http", netloc := "a.example", path := "/private/report", query := "" }

def envC1 : CrawlEnv :=
  { browserType := "playwright"
    playwrightAvailable := true
    seleniumAvailable := false
    respectRobots := false
    maxPages := 5
    pdfFolder := "pdf"
    htmlFolder := "html"
    markdownFolder := "md"
    robotsRules := []
    pageContent := fun u => if u = uA then some "pageA" else none
    hrefs := fun c => if c = "pageA" then Except.ok ["http://other.example/doc.pdf"] else Except.ok []
    urljoin := fun _ h => if h = "http://other.example/doc.pdf" then uD else uA
    httpGet := fun _ => some { status := 200, contentType := "application/pdf", body := "B" }
    saveHtmlOk := fun _ => true
    convertOk := fun _ => true
    now := 7 }

def envC2 : CrawlEnv := { envC1 with browserType := "chrome" }

def envC4 : CrawlEnv := { envC1 with maxPages := 1 }

def envC6 : CrawlEnv :=
  { envC1 with
    respectRobots := true
    robotsRules := ["/private/"]
    hrefs := fun c => if c = "pageA" then Except.ok ["/private/report"] else Except.ok []
    urljoin := fun _ h => if h = "/private/report" then uPriv else uA }

/-- The final traversal state of the fixture crawls: only the root was
visited and no document was stored. -/
def stC1 : CrawlState :=
  { visited := [uA]
    toVisit := []
    pageCount := 1
    pdfFiles := []
    htmlFiles := ["html/acme_j1/index.html"]
    markdownFiles := ["md/acme_j1/index.md"]
    fetchLog := [uA]
    enqueueLog := [uA]
    savedDocs := [] }

/-- The crawl result of the fixture crawls. -/
def rC1 : CrawlResult :=
  { company_name := "acme"
    job_id := "j1"
    website := uA
    pages_crawled := 1
    pdf_files := []
    html_files := ["html/acme_j1/index.html"]
    markdown_files := ["md/acme_j1/index.md"] }

theorem crawlC1_loop : crawlLoop envC1 "a.example" [] "acme" "j1" (initState uA) =
    (stC1, none) := by
  rw [@crawlLoop_links envC1 "a.example" [] "acme" "j1" (initState uA) uA []
    "pageA" ["http://other.example/doc.pdf"]
    (by decide) (by decide) (by decide) (by decide) (by decide) (by decide) (by rfl)]
  rw [crawlLoop_empty envC1 "a.example" [] "acme" "j1" (by decide)]
  decide

theorem crawlC1_website : crawl_website envC1 uA "acme" "j1" =
    { result := Except.ok (CrawlRet.success rC1), closed := true, finalState := some stC1 } := by
  have h := crawl_website_run_none
    (show setup_browser envC1 = Except.ok BrowserContext.playwright from rfl)
    uA "acme" "j1" crawlC1_loop
  rw [h]
  rfl

theorem crawlC4_loop : crawlLoop envC4 "a.example" [] "acme" "j1" (initState uA) =
    (stC1, none) := by
  rw [@crawlLoop_links envC4 "a.example" [] "acme" "j1" (initState uA) uA []
    "pageA" ["http://other.example/doc.pdf"]
    (by decide) (by decide) (by decide) (by decide) (by decide) (by decide) (by rfl)]
  rw [crawlLoop_halt envC4 "a.example" [] "acme" "j1" (by decide)]
  decide

theorem crawlC4_website : crawl_website envC4 uA "acme" "j1" =
    { result := Except.ok (CrawlRet.success rC1), closed := true, finalState := some stC1 } := by
  have h := crawl_website_run_none
    (show setup_browser envC4 = Except.ok BrowserContext.playwright from rfl)
    uA "acme" "j1" crawlC4_loop
  rw [h]
  rfl

theorem crawlC6_loop : crawlLoop envC6 "a.example" ["/private/"] "acme" "j1" (initState uA) =
    (stC1, none) := by
  rw [@crawlLoop_links envC6 "a.example" ["/private/"] "acme" "j1" (initState uA) uA []
    "pageA" ["/private/report"]
    (by decide) (by decide) (by decide) (by decide) (by decide) (by decide) (by rfl)]
  rw [crawlLoop_empty envC6 "a.example" ["/private/"] "acme" "j1" (by decide)]
  decide

theorem crawlC6_website : crawl_website envC6 uA "acme" "j1" =
    { result := Except.ok (CrawlRet.success rC1), closed := true, finalState := some stC1 } := by
  have h := crawl_website_run_none
    (show setup_browser envC6 = Except.ok BrowserContext.playwright from rfl)
    uA "acme" "j1" crawlC6_loop
  rw [h]
  rfl

def uP : Url := { scheme := "http", netloc := "a.example", path := "/spec.pdf", query := "" }

def job0 : FcJob :=
  { job_id := "J"
    company_name := "acme"
    website := "http://a.example"
    status := none
    firecrawl_failure_reason := none }

def envF0 : FcEnv := { scrape := Except.error "", sendOk := true, deleteOk := true }

def envF1 : FcEnv := { scrape := Except.ok none, sendOk := true, deleteOk := true }

def envF2 : FcEnv := { scrape := Except.ok none, sendOk := false, deleteOk := true }

/-- job0 as the tier-1 worker annotates it on a falsy scrape result. -/
def job0failed : FcJob :=
  { job0 with
    firecrawl_failure_reason := some "Failed to process with Firecrawl"
    status := some "firecrawl_failed" }

/-- Claim C1, amended: every URL ever placed on the frontier is the root
or shares the root's domain, and every URL ever fetched (page render or
document download) is the root or shares the root's domain — so a
cross-domain document link is neither enqueued nor fetched; the
same-domain filter applies to document-extension links too. -/
theorem claim_C1_domain_filter (env : CrawlEnv) (website : Url) (companyName jobId : String)
    (st : CrawlState)
    (hfs : (crawl_website env website companyName jobId).finalState = some st) :
    (∀ u ∈ st.enqueueLog, u = website ∨ is_same_domain u website.netloc = true) ∧
    (∀ u ∈ st.fetchLog, u = website ∨ is_same_domain u website.netloc = true) := by
  have hinv := crawl_finalState_inv hfs
  refine ⟨hinv.enqDomain, ?_⟩
  intro u hu
  exact hinv.enqDomain u (hinv.visitedSub u (hinv.fetchSub u hu))

/-- Claim C1, counterexample: a crawled page links to a cross-domain
document URL whose HTTP response is a valid PDF, yet the crawl completes
with an empty document list and the cross-domain URL is never fetched,
never enqueued and never visited — contradicting the claim that direct
document-extension links are fetched regardless of domain. -/
theorem claim_C1_counterexample :
    envC1.hrefs "pageA" = Except.ok ["http://other.example/doc.pdf"] ∧
    envC1.pageContent uA = some "pageA" ∧
    envC1.urljoin uA "http://other.example/doc.pdf" = uD ∧
    urlEndsWithPdf uD = true ∧
    is_same_domain uD uA.netloc = false ∧
    envC1.httpGet uD = some { status := 200, contentType := "application/pdf", body := "B" } ∧
    (crawl_website envC1 uA "acme" "j1").result = Except.ok (CrawlRet.success rC1) ∧
    rC1.pdf_files = [] ∧
    (crawl_website envC1 uA "acme" "j1").finalState = some stC1 ∧
    uD ∉ stC1.fetchLog ∧ uD ∉ stC1.enqueueLog ∧ uD ∉ stC1.visited ∧ stC1.savedDocs = [] := by
  refine ⟨rfl, rfl, rfl, by decide, by decide, rfl, ?_, rfl, ?_, by decide, by decide, by decide,
    rfl⟩
  · rw [crawlC1_website]
  · rw [crawlC1_website]

/-- Witness for claim C1's amended theorem at the fixture crawl. -/
theorem claim_C1_witness :
    (crawl_website envC1 uA "acme" "j1").finalState = some stC1 ∧
    (∀ u ∈ stC1.enqueueLog, u = uA ∨ is_same_domain u uA.netloc = true) ∧
    (∀ u ∈ stC1.fetchLog, u = uA ∨ is_same_domain u uA.netloc = true) := by
  have hfs : (crawl_website envC1 uA "acme" "j1").finalState = some stC1 := by
    rw [crawlC1_website]
  exact ⟨hfs, (claim_C1_domain_filter envC1 uA "acme" "j1" stC1 hfs).1,
    (claim_C1_domain_filter envC1 uA "acme" "j1" stC1 hfs).2⟩

/-- Claim C2, amended: when the configured backend is unavailable,
setup_browser raises inside crawl_website at job-processing time; the
worker's process_job catches the exception, the job is reported failed,
its queue message is still deleted, and the worker loop continues —
a per-job failure, not a fatal startup error. -/
theorem claim_C2_backend_per_job (env : CrawlEnv) (website : Url) (companyName jobId : String)
    (e : String) (hsb : setup_browser env = Except.error e) :
    customWorkerStep env website companyName jobId =
      { jobSuccess := false, messageDeleted := true, workerAborted := false } ∧
    (crawl_website env website companyName jobId).result = Except.error e := by
  unfold customWorkerStep customWorkerProcessJob
  rw [crawl_website_setup_err hsb website companyName jobId]
  exact ⟨rfl, rfl⟩

/-- Claim C2, counterexample: with an unsupported browser type the
worker does not abort before taking a job; it processes the job, marks
it failed, deletes its message and keeps running. -/
theorem claim_C2_counterexample :
    setup_browser envC2 = Except.error "Browser type chrome not available or not supported" ∧
    customWorkerStep envC2 uA "acme" "j1" =
      { jobSuccess := false, messageDeleted := true, workerAborted := false } :=
  ⟨rfl, rfl⟩

/-- Witness for claim C2's amended theorem at the unsupported-backend
fixture. -/
theorem claim_C2_witness :
    customWorkerStep envC2 uA "acme" "j1" =
      { jobSuccess := false, messageDeleted := true, workerAborted := false } ∧
    (crawl_website envC2 uA "acme" "j1").result =
      Except.error "Browser type chrome not available or not supported" :=
  claim_C2_backend_per_job envC2 uA "acme" "j1" _ rfl

/-- Claim C3, amended: when transport succeeds, a failed tier-1 job is
forwarded to the fallback queue annotated with status firecrawl_failed
(the tier-1 failed status) and the failure reason, provided the reason
string is non-empty; on success nothing is forwarded; in both cases the
first-tier message is deleted. -/
theorem claim_C3_failover (envF : FcEnv) (job : FcJob)
    (hsend : envF.sendOk = true) (hdel : envF.deleteOk = true) :
    (∀ reason, fc_process_job envF = FcOutcome.fail reason → reason ≠ "" →
      (fc_handle_message envF job).sentToFallback =
        [{ job with firecrawl_failure_reason := some reason, status := some "firecrawl_failed" }] ∧
      (fc_handle_message envF job).messageDeleted = true) ∧
    (∀ results, fc_process_job envF = FcOutcome.ok results →
      (fc_handle_message envF job).sentToFallback = [] ∧
      (fc_handle_message envF job).messageDeleted = true) := by
  constructor
  · intro reason hfail hne
    constructor
    · simp [fc_handle_message, hfail, send_to_custom_crawler_queue, hne, hsend]
    · simp [fc_handle_message, hfail, send_to_custom_crawler_queue, hdel]
  · intro results hok
    constructor
    · simp [fc_handle_message, hok]
    · simp [fc_handle_message, hok, hdel]

/-- Claim C3, counterexample: a tier-1 scrape failing with an exception
whose message is empty is forwarded to the fallback queue without the
tier1-failed status and without a failure reason, because the annotation
is skipped for a falsy reason string. -/
theorem claim_C3_counterexample :
    fc_process_job envF0 = FcOutcome.fail "" ∧
    (fc_handle_message envF0 job0).sentToFallback = [job0] ∧
    job0.status = none ∧ job0.firecrawl_failure_reason = none ∧
    (fc_handle_message envF0 job0).messageDeleted = true :=
  ⟨rfl, rfl, rfl, rfl, rfl⟩

/-- Witness for claim C3's amended theorem: a falsy scrape result gives
the fixed non-empty reason, so the forwarded message is annotated. -/
theorem claim_C3_witness :
    envF1.sendOk = true ∧ envF1.deleteOk = true ∧
    fc_process_job envF1 = FcOutcome.fail "Failed to process with Firecrawl" ∧
    (fc_handle_message envF1 job0).sentToFallback = [job0failed] ∧
    (fc_handle_message envF1 job0).messageDeleted = true := by
  refine ⟨rfl, rfl, rfl, ?_, ?_⟩
  · exact ((claim_C3_failover envF1 job0 rfl rfl).1 _ rfl (by decide)).1
  · exact ((claim_C3_failover envF1 job0 rfl rfl).1 _ rfl (by decide)).2

/-- Claim C4: when the robots-allowed reachable graph holds at least as
many pages as the budget, a successful crawl reports exactly the budget
as pages_crawled; and in every crawl session the page counter equals the
size of the visited set and never exceeds the configured maximum. -/
theorem claim_C4_budget (env : CrawlEnv) (website : Url) (companyName jobId : String) :
    (∀ r : CrawlResult,
      (crawl_website env website companyName jobId).result = Except.ok (CrawlRet.success r) →
      (∃ S : Finset Url, (∀ u ∈ S, Reach env website.netloc (crawlDisallowed env) website u) ∧
        env.maxPages ≤ S.card) →
      r.pages_crawled = env.maxPages) ∧
    (∀ st : CrawlState, (crawl_website env website companyName jobId).finalState = some st →
      st.pageCount = st.visited.length ∧ st.pageCount ≤ env.maxPages) := by
  constructor
  · rintro r hres ⟨S, hS, hcard⟩
    obtain ⟨st, hloop, hinv, hpages, _⟩ := crawl_success_final hres
    have hexit := crawlLoop_exits env website.netloc (crawlDisallowed env) companyName jobId
      (initState website) (by rw [hloop])
    rw [hloop] at hexit
    have hexit2 : st.toVisit = [] ∨ env.maxPages ≤ st.pageCount := hexit
    rw [hpages]
    rcases hexit2 with hEmpty | hBudget
    · have hsub := reach_subset_visited hinv hEmpty
      have hSsub : S ⊆ st.visited.toFinset := by
        intro x hx
        rw [List.mem_toFinset]
        exact hsub x (hS x hx)
      have h1 : S.card ≤ st.visited.toFinset.card := Finset.card_le_card hSsub
      have h2 : st.visited.toFinset.card = st.visited.length :=
        List.toFinset_card_of_nodup hinv.visitedNodup
      have h3 : st.visited.length ≤ env.maxPages := by
        rw [← hinv.countEq]
        exact hinv.countLe
      omega
    · have h1 := hinv.countLe
      have h2 := hinv.countEq
      omega
  · intro st hfs
    have hinv := crawl_finalState_inv hfs
    exact ⟨hinv.countEq, hinv.countLe⟩

/-- Witness for claim C4 at the budget-1 fixture crawl. -/
theorem claim_C4_witness :
    (crawl_website envC4 uA "acme" "j1").result = Except.ok (CrawlRet.success rC1) ∧
    (∃ S : Finset Url, (∀ u ∈ S, Reach envC4 uA.netloc (crawlDisallowed envC4) uA u) ∧
      envC4.maxPages ≤ S.card) ∧
    rC1.pages_crawled = envC4.maxPages := by
  have hres : (crawl_website envC4 uA "acme" "j1").result =
      Except.ok (CrawlRet.success rC1) := by
    rw [crawlC4_website]
  have hS : ∃ S : Finset Url, (∀ u ∈ S, Reach envC4 uA.netloc (crawlDisallowed envC4) uA u) ∧
      envC4.maxPages ≤ S.card := by
    refine ⟨{uA}, ?_, by decide⟩
    intro u hu
    rw [Finset.mem_singleton] at hu
    subst hu
    exact Reach.root (by decide)
  exact ⟨hres, hS, (claim_C4_budget envC4 uA "acme" "j1").1 rC1 hres hS⟩

/-- Claim C5: within one session no URL is fetched twice and no URL is
enqueued twice — the fetch and enqueue event logs of the final state are
duplicate-free (and so are the visited set and the frontier). -/
theorem claim_C5_no_refetch (env : CrawlEnv) (website : Url) (companyName jobId : String)
    (st : CrawlState)
    (hfs : (crawl_website env website companyName jobId).finalState = some st) :
    st.fetchLog.Nodup ∧ st.enqueueLog.Nodup ∧ st.visited.Nodup ∧ st.toVisit.Nodup := by
  have hinv := crawl_finalState_inv hfs
  exact ⟨hinv.fetchNodup, hinv.enqNodup, hinv.visitedNodup, hinv.toVisitNodup⟩

/-- Witness for claim C5 at the fixture crawl. -/
theorem claim_C5_witness :
    (crawl_website envC1 uA "acme" "j1").finalState = some stC1 ∧
    stC1.fetchLog.Nodup ∧ stC1.enqueueLog.Nodup ∧ stC1.visited.Nodup ∧ stC1.toVisit.Nodup := by
  have hfs : (crawl_website envC1 uA "acme" "j1").finalState = some stC1 := by
    rw [crawlC1_website]
  exact ⟨hfs, claim_C5_no_refetch envC1 uA "acme" "j1" stC1 hfs⟩

/-- Claim C6: with robots compliance on and a rule disallowing prefix P,
a URL whose path starts with P is never marked visited and never
fetched, in any crawl session and whatever the discovery order. -/
theorem claim_C6_robots (env : CrawlEnv) (website : Url) (companyName jobId : String)
    (st : CrawlState) (P : String) (u : Url)
    (hrr : env.respectRobots = true) (hP : P ∈ env.robotsRules)
    (hpre : strStartsWith u.path P = true)
    (hfs : (crawl_website env website companyName jobId).finalState = some st) :
    u ∉ st.visited ∧ u ∉ st.fetchLog := by
  have hinv := crawl_finalState_inv hfs
  have hdis : is_allowed_url env.respectRobots u (crawlDisallowed env) = false := by
    have hrl : crawlDisallowed env = env.robotsRules := by
      unfold crawlDisallowed
      rw [hrr]
      simp
    have hne : env.robotsRules.isEmpty = false := by
      cases hrl2 : env.robotsRules with
      | nil => rw [hrl2] at hP; cases hP
      | cons a l => rfl
    rw [hrl]
    unfold is_allowed_url
    rw [hrr, hne]
    rw [Bool.eq_false_iff]
    intro hall
    rw [if_neg (by simp)] at hall
    rw [List.all_eq_true] at hall
    have := hall P hP
    rw [hpre] at this
    simp at this
  constructor
  · intro hx
    have := hinv.visitedAllowed u hx
    rw [hdis] at this
    cases this
  · intro hx
    have := hinv.visitedAllowed u (hinv.fetchSub u hx)
    rw [hdis] at this
    cases this

/-- Witness for claim C6 at the robots fixture crawl: the disallowed
link /private/report is discovered but never visited nor fetched. -/
theorem claim_C6_witness :
    envC6.respectRobots = true ∧ "/private/" ∈ envC6.robotsRules ∧
    strStartsWith uPriv.path "/private/" = true ∧
    (crawl_website envC6 uA "acme" "j1").finalState = some stC1 ∧
    uPriv ∉ stC1.visited ∧ uPriv ∉ stC1.fetchLog := by
  have hfs : (crawl_website envC6 uA "acme" "j1").finalState = some stC1 := by
    rw [crawlC6_website]
  refine ⟨rfl, by decide, by decide, hfs, ?_⟩
  exact claim_C6_robots envC6 uA "acme" "j1" stC1 "/private/" uPriv rfl (by decide)
    (by decide) hfs

/-- Claim C7: whenever browser setup succeeds, the teardown runs on
every exit path of the traversal — normal completion and exception
alike — so the session always releases the browser. -/
theorem claim_C7_teardown (env : CrawlEnv) (website : Url) (companyName jobId : String)
    (b : BrowserContext) (hsb : setup_browser env = Except.ok b) :
    (crawl_website env website companyName jobId).closed = true := by
  cases hloop : crawlLoop env website.netloc (crawlDisallowed env) companyName jobId
    (initState website) with
  | mk st exc =>
    cases exc with
    | none => rw [crawl_website_run_none hsb website companyName jobId hloop]
    | some e => rw [crawl_website_run_err hsb website companyName jobId hloop]

/-- Witness for claim C7 at the fixture crawl. -/
theorem claim_C7_witness : (crawl_website envC1 uA "acme" "j1").closed = true :=
  claim_C7_teardown envC1 uA "acme" "j1" BrowserContext.playwright rfl

/-- Claim C8: when the popped frontier URL is a document URL, the loop
records the fetch and continues with the remaining frontier whatever the
download outcome; the response body is persisted and its path appended
to the document list exactly when the status is 200 and the Content-Type
contains application/pdf; otherwise (mismatch or request exception)
nothing is persisted. -/
theorem claim_C8_document_fetch (env : CrawlEnv) (baseDomain : String)
    (disallowedPaths : List String) (companyName jobId : String)
    (st : CrawlState) (u : Url) (rest : List Url)
    (h : st.toVisit = u :: rest) (hb : ¬ env.maxPages ≤ st.pageCount)
    (hvis : u ∉ st.visited)
    (hal : is_allowed_url env.respectRobots u disallowedPaths = true)
    (hpdf : urlEndsWithPdf u = true) :
    crawlLoop env baseDomain disallowedPaths companyName jobId st =
      crawlLoop env baseDomain disallowedPaths companyName jobId
        (pdfBranch env companyName jobId (markVisited st u rest) u) ∧
    (pdfBranch env companyName jobId (markVisited st u rest) u).toVisit = rest ∧
    (pdfBranch env companyName jobId (markVisited st u rest) u).visited = u :: st.visited ∧
    (pdfBranch env companyName jobId (markVisited st u rest) u).fetchLog =
      st.fetchLog ++ [u] ∧
    (pdfBranch env companyName jobId (markVisited st u rest) u).htmlFiles = st.htmlFiles ∧
    (∀ resp : HttpResponse, env.httpGet u = some resp → resp.status = 200 →
      containsSubstring "application/pdf".data resp.contentType.data = true →
      (pdfBranch env companyName jobId (markVisited st u rest) u).pdfFiles =
        st.pdfFiles ++ [pdfFilePath env u companyName jobId] ∧
      (pdfBranch env companyName jobId (markVisited st u rest) u).savedDocs =
        st.savedDocs ++ [(pdfFilePath env u companyName jobId, resp.body)]) ∧
    (∀ resp : HttpResponse, env.httpGet u = some resp →
      (¬ resp.status = 200 ∨ containsSubstring "application/pdf".data resp.contentType.data = false) →
      (pdfBranch env companyName jobId (markVisited st u rest) u).pdfFiles = st.pdfFiles ∧
      (pdfBranch env companyName jobId (markVisited st u rest) u).savedDocs = st.savedDocs) ∧
    (env.httpGet u = none →
      (pdfBranch env companyName jobId (markVisited st u rest) u).pdfFiles = st.pdfFiles ∧
      (pdfBranch env companyName jobId (markVisited st u rest) u).savedDocs = st.savedDocs) := by
  refine ⟨crawlLoop_pdf env baseDomain disallowedPaths companyName jobId h hb hvis hal hpdf,
    rfl, rfl, ?_, rfl, ?_, ?_, ?_⟩
  · simp [pdfBranch, markVisited]
  · intro resp hresp h200 hct
    constructor
    · simp [pdfBranch, markVisited, download_pdf, hresp, h200, hct]
    · simp [pdfBranch, markVisited, download_pdf, hresp, h200, hct]
  · intro resp hresp hfail
    rcases hfail with hf | hf
    · constructor
      · simp [pdfBranch, markVisited, download_pdf, hresp, hf]
      · simp [pdfBranch, markVisited, download_pdf, hresp, hf]
    · constructor
      · simp [pdfBranch, markVisited, download_pdf, hresp, hf]
      · simp [pdfBranch, markVisited, download_pdf, hresp, hf]
  · intro hresp
    constructor
    · simp [pdfBranch, markVisited, download_pdf, hresp]
    · simp [pdfBranch, markVisited, download_pdf, hresp]

/-- Witness for claim C8: a same-domain spec.pdf frontier entry with a
well-typed 200 response is persisted with its path recorded. -/
theorem claim_C8_witness :
    (pdfBranch envC1 "acme" "j1" (markVisited (initState uP) uP []) uP).pdfFiles =
      [pdfFilePath envC1 uP "acme" "j1"] ∧
    (pdfBranch envC1 "acme" "j1" (markVisited (initState uP) uP []) uP).savedDocs =
      [(pdfFilePath envC1 uP "acme" "j1", "B")] ∧
    (pdfBranch envC1 "acme" "j1" (markVisited (initState uP) uP []) uP).toVisit = [] ∧
    crawlLoop envC1 "a.example" [] "acme" "j1" (initState uP) =
      crawlLoop envC1 "a.example" [] "acme" "j1"
        (pdfBranch envC1 "acme" "j1" (markVisited (initState uP) uP []) uP) := by
  have h := claim_C8_document_fetch envC1 "a.example" [] "acme" "j1" (initState uP) uP []
    (by decide) (by decide) (by decide) (by decide) (by decide)
  have hpersist := h.2.2.2.2.2.1 { status := 200, contentType := "application/pdf", body := "B" }
    rfl rfl (by decide)
  exact ⟨by rw [hpersist.1]; rfl, by rw [hpersist.2]; rfl, h.2.1, h.1⟩

/-- Claim C10: when forwarding a failed job to the fallback queue itself
fails (the send is caught and returns False), the first-tier message is
still deleted, so the job leaves the first-tier queue without ever
reaching the fallback queue. -/
theorem claim_C10_delete_unconditional (envF : FcEnv) (job : FcJob) (reason : String)
    (hsend : envF.sendOk = false) (hdel : envF.deleteOk = true)
    (hfail : fc_process_job envF = FcOutcome.fail reason) :
    (fc_handle_message envF job).sentToFallback = [] ∧
    (fc_handle_message envF job).messageDeleted = true := by
  constructor
  · simp [fc_handle_message, hfail, send_to_custom_crawler_queue, hsend]
  · simp [fc_handle_message, hfail, send_to_custom_crawler_queue, hdel]

/-- Witness for claim C10 with a failing transport fixture. -/
theorem claim_C10_witness :
    envF2.sendOk = false ∧ envF2.deleteOk = true ∧
    fc_process_job envF2 = FcOutcome.fail "Failed to process with Firecrawl" ∧
    (fc_handle_message envF2 job0).sentToFallback = [] ∧
    (fc_handle_message envF2 job0).messageDeleted = true := by
  refine ⟨rfl, rfl, rfl, ?_⟩
  exact claim_C10_delete_unconditional envF2 job0 "Failed to process with Firecrawl" rfl rfl rfl

theorem grab_nonws {c : Char} (cs : List Char) (h : isPyWs c = false) :
    grabNlTail (c :: cs) = none := by
  rw [grabNlTail, h]
  rfl

theorem grab_ws_ne_nl {c : Char} (cs : List Char) (hw : isPyWs c = true) (hn : c ≠ '\n') :
    grabNlTail (c :: cs) = grabNlTail cs := by
  rw [grabNlTail, hw]
  cases hg : grabNlTail cs with
  | some r => rfl
  | none => simp [hn]

theorem grab_nl (cs : List Char) : ∃ r, grabNlTail ('\n' :: cs) = some r := by
  rw [grabNlTail]
  cases hg : grabNlTail cs with
  | some r => exact ⟨r, rfl⟩
  | none => exact ⟨cs, by simp [isPyWs]⟩

theorem grab_nl_of_none {cs : List Char} (h : grabNlTail cs = none) :
    grabNlTail ('\n' :: cs) = some cs := by
  rw [grabNlTail, h]
  simp [isPyWs]

theorem grab_some_none {cs r : List Char} (h : grabNlTail cs = some r) :
    grabNlTail r = none := by
  induction cs generalizing r with
  | nil => rw [grabNlTail] at h; cases h
  | cons c cs ih =>
    rw [grabNlTail] at h
    by_cases hw : isPyWs c = true
    · rw [if_pos hw] at h
      cases hg : grabNlTail cs with
      | some r2 =>
        rw [hg] at h
        injection h with h
        subst h
        exact ih hg
      | none =>
        rw [hg] at h
        by_cases hn : c = '\n'
        · rw [if_pos hn] at h
          injection h with h
          subst h
          exact hg
        · rw [if_neg hn] at h
          cases h
    · rw [if_neg hw] at h
      cases h

theorem sub1_nil : sub1 [] = [] := by
  rw [sub1]

theorem sub1_cons_ne {c : Char} (cs : List Char) (h : c ≠ '\n') :
    sub1 (c :: cs) = c :: sub1 cs := by
  rw [sub1]
  simp [h]

theorem sub1_nl_none {cs : List Char} (h : grabNlTail cs = none) :
    sub1 ('\n' :: cs) = '\n' :: sub1 cs := by
  rw [sub1]
  rw [if_pos rfl]
  split
  · next r heq => rw [h] at heq; cases heq
  · rfl

theorem sub1_nl_some {cs r : List Char} (h : grabNlTail cs = some r) :
    sub1 ('\n' :: cs) = '\n' :: '\n' :: sub1 r := by
  rw [sub1]
  rw [if_pos rfl]
  split
  · next r2 heq =>
    rw [h] at heq
    injection heq with heq
    rw [heq]
  · next heq => rw [h] at heq; cases heq

theorem grab_none_sub1 {cs : List Char} (h : grabNlTail cs = none) :
    grabNlTail (sub1 cs) = none := by
  induction cs with
  | nil => rw [sub1_nil]; exact h
  | cons c cs ih =>
    by_cases hn : c = '\n'
    · subst hn
      obtain ⟨r, hr⟩ := grab_nl cs
      rw [hr] at h
      cases h
    · rw [sub1_cons_ne cs hn]
      by_cases hw : isPyWs c = true
      · rw [grab_ws_ne_nl cs hw hn] at h
        rw [grab_ws_ne_nl (sub1 cs) hw hn]
        exact ih h
      · exact grab_nonws (sub1 cs) (by simpa using hw)

/-- Normal form of the blank-run substitution: after every newline the
following whitespace admits no further match of the tail of the pattern
r'\n\s*\n', except that a newline may be followed by exactly one more
newline with no match after that — the shape of the replacement. -/
def goodNl : List Char → Prop
  | [] => True
  | c :: cs =>
    (c = '\n' → (grabNlTail cs = none ∨ ∃ t, cs = '\n' :: t ∧ grabNlTail t = none)) ∧ goodNl cs

theorem goodNl_nil : goodNl [] := trivial

theorem goodNl_cons {c : Char} {cs : List Char}
    (h1 : c = '\n' → (grabNlTail cs = none ∨ ∃ t, cs = '\n' :: t ∧ grabNlTail t = none))
    (h2 : goodNl cs) : goodNl (c :: cs) := ⟨h1, h2⟩

theorem goodNl_tail {c : Char} {cs : List Char} (h : goodNl (c :: cs)) : goodNl cs := h.2

theorem good_sub1 (l : List Char) : goodNl (sub1 l) := by
  induction l using sub1.induct with
  | case1 => rw [sub1_nil]; exact goodNl_nil
  | case2 t r heq ih =>
    rw [sub1_nl_some heq]
    have hgr : grabNlTail (sub1 r) = none := grab_none_sub1 (grab_some_none heq)
    refine goodNl_cons ?_ (goodNl_cons ?_ ih)
    · intro _
      exact Or.inr ⟨sub1 r, rfl, hgr⟩
    · intro _
      exact Or.inl hgr
  | case3 t heq ih =>
    rw [sub1_nl_none heq]
    refine goodNl_cons ?_ ih
    intro _
    exact Or.inl (grab_none_sub1 heq)
  | case4 c t hn ih =>
    rw [sub1_cons_ne t hn]
    exact goodNl_cons (fun hc => absurd hc hn) ih

theorem sub1_id_of_good {l : List Char} (h : goodNl l) : sub1 l = l := by
  induction l using sub1.induct with
  | case1 => exact sub1_nil
  | case2 t r heq ih =>
    rcases h.1 rfl with hg | ⟨t2, ht2, hgt2⟩
    · rw [hg] at heq; cases heq
    · subst ht2
      rw [grab_nl_of_none hgt2] at heq
      injection heq with heq
      subst heq
      rw [sub1_nl_some (grab_nl_of_none hgt2)]
      rw [ih (goodNl_tail h.2)]
  | case3 t heq ih =>
    rw [sub1_nl_none heq, ih h.2]
  | case4 c t hn ih =>
    rw [sub1_cons_ne t hn, ih h.2]

theorem sub2_pair_drop {c d : Char} (cs : List Char) (h : c = ' ' ∧ d = ' ') :
    sub2 (c :: d :: cs) = sub2 (d :: cs) := by
  rw [sub2, if_pos h]

theorem sub2_pair_keep {c d : Char} (cs : List Char) (h : ¬(c = ' ' ∧ d = ' ')) :
    sub2 (c :: d :: cs) = c :: sub2 (d :: cs) := by
  rw [sub2, if_neg h]

theorem sub2_cons_ne_space {c : Char} (t : List Char) (h : c ≠ ' ') :
    sub2 (c :: t) = c :: sub2 t := by
  cases t with
  | nil => rfl
  | cons e ts => exact sub2_pair_keep ts (fun hc => h hc.1)

theorem sub2_head (d : Char) (cs : List Char) : ∃ t, sub2 (d :: cs) = d :: t := by
  induction cs generalizing d with
  | nil => exact ⟨[], rfl⟩
  | cons e cs ih =>
    by_cases hde : d = ' ' ∧ e = ' '
    · obtain ⟨t, ht⟩ := ih e
      rw [sub2_pair_drop cs hde, ht, hde.1, ← hde.2]
      exact ⟨t, rfl⟩
    · exact ⟨sub2 (e :: cs), sub2_pair_keep cs hde⟩

theorem grab_none_sub2 {l : List Char} (h : grabNlTail l = none) :
    grabNlTail (sub2 l) = none := by
  induction l using sub2.induct with
  | case1 => exact h
  | case2 c => exact h
  | case3 c d cs hcd ih =>
    rw [sub2_pair_drop cs hcd]
    refine ih ?_
    rw [grab_ws_ne_nl (d :: cs) (by rw [hcd.1]; rfl) (by rw [hcd.1]; decide)] at h
    exact h
  | case4 c d cs hcd ih =>
    rw [sub2_pair_keep cs hcd]
    by_cases hw : isPyWs c = true
    · have hn : c ≠ '\n' := by
        intro hc
        subst hc
        obtain ⟨r, hr⟩ := grab_nl (d :: cs)
        rw [hr] at h
        cases h
      rw [grab_ws_ne_nl (d :: cs) hw hn] at h
      rw [grab_ws_ne_nl (sub2 (d :: cs)) hw hn]
      exact ih h
    · exact grab_nonws (sub2 (d :: cs)) (by simpa using hw)

theorem good_sub2 {l : List Char} (h : goodNl l) : goodNl (sub2 l) := by
  induction l using sub2.induct with
  | case1 => exact h
  | case2 c => exact h
  | case3 c d cs hcd ih =>
    rw [sub2_pair_drop cs hcd]
    exact ih (goodNl_tail h)
  | case4 c d cs hcd ih =>
    rw [sub2_pair_keep cs hcd]
    refine goodNl_cons ?_ (ih (goodNl_tail h))
    intro hc
    subst hc
    rcases h.1 rfl with hg | ⟨t, ht, hgt⟩
    · exact Or.inl (grab_none_sub2 hg)
    · injection ht with ht1 ht2
      subst ht1
      rw [← ht2] at hgt
      rw [sub2_cons_ne_space cs (by decide)]
      exact Or.inr ⟨sub2 cs, rfl, grab_none_sub2 hgt⟩

theorem sub2_idem (l : List Char) : sub2 (sub2 l) = sub2 l := by
  induction l using sub2.induct with
  | case1 => rfl
  | case2 c => rfl
  | case3 c d cs hcd ih =>
    rw [sub2_pair_drop cs hcd]
    exact ih
  | case4 c d cs hcd ih =>
    rw [sub2_pair_keep cs hcd]
    obtain ⟨t, ht⟩ := sub2_head d cs
    rw [ht, sub2_pair_keep t hcd, ← ht, ih]

/-- The whitespace clean-up of html_to_markdown is idempotent. -/
theorem collapseWs_idem (s : String) : collapseWs (collapseWs s) = collapseWs s := by
  show String.mk (sub2 (sub1 (sub2 (sub1 s.data)))) = String.mk (sub2 (sub1 s.data))
  rw [sub1_id_of_good (good_sub2 (good_sub1 s.data)), sub2_idem]

theorem sub1_no_nl {l : List Char} (h : '\n' ∉ l) : sub1 l = l := by
  induction l with
  | nil => exact sub1_nil
  | cons c cs ih =>
    have hc : c ≠ '\n' := by
      intro hc
      exact h (by rw [hc]; exact List.mem_cons_self _ _)
    rw [sub1_cons_ne cs hc, ih (fun hm => h (List.mem_cons_of_mem _ hm))]

theorem lexHtml_cons_plain {c : Char} (cs : List Char) (h1 : c ≠ '<') (h2 : c ≠ '&') :
    lexHtml (c :: cs) = Tok.txt c :: lexHtml cs := by
  rw [lexHtml.eq_def]
  split
  · next heq => simp at heq
  · next _ r heq =>
    injection heq with hh1 hh2
    exact absurd hh1 h1
  · next _ r heq =>
    injection heq with hh1 hh2
    exact absurd hh1 h2
  · next _ c2 r hne1 hne2 heq =>
    injection heq with hh1 hh2
    rw [← hh1, ← hh2]

theorem lexHtml_plain (l : List Char) (h : ∀ c ∈ l, c ≠ '<' ∧ c ≠ '&') :
    lexHtml l = l.map Tok.txt := by
  induction l with
  | nil => rw [lexHtml.eq_def]; rfl
  | cons c cs ih =>
    have hlt : c ≠ '<' := (h c (List.mem_cons_self _ _)).1
    have hamp : c ≠ '&' := (h c (List.mem_cons_self _ _)).2
    rw [lexHtml_cons_plain cs hlt hamp, List.map_cons]
    rw [ih (fun x hx => h x (List.mem_cons_of_mem _ hx))]

theorem collectStrings_txt (l : List Char) :
    ∀ cur : List Char, collectStrings (l.map Tok.txt) none cur =
      if cur.reverse ++ l = [] then [] else [String.mk (cur.reverse ++ l)] := by
  induction l with
  | nil =>
    intro cur
    rw [List.map_nil, collectStrings]
    cases cur with
    | nil => rfl
    | cons c cs => simp
  | cons c l ih =>
    intro cur
    rw [List.map_cons, collectStrings, ih (c :: cur)]
    have h1 : (c :: cur).reverse ++ l = cur.reverse ++ (c :: l) := by
      rw [List.reverse_cons, List.append_assoc]
      rfl
    rw [h1]

theorem stripAndGetText_plain {s : String} (h : ∀ c ∈ s.data, c ≠ '<' ∧ c ≠ '&') :
    stripAndGetText s = s := by
  unfold stripAndGetText
  rw [lexHtml_plain s.data h, collectStrings_txt s.data []]
  simp only [List.reverse_nil, List.nil_append]
  by_cases hs : s.data = []
  · rw [if_pos hs]
    cases s with
    | mk data =>
      simp only [String.data] at hs
      subst hs
      rfl
  · rw [if_neg hs]
    rfl

/-- Claim C9, amended: plain-text extraction applied a second time to
its own output returns that output unchanged, provided the extracted
text contains no markup-significant character ('<' or '&'); in that case
the second parse sees a single text node and the whitespace clean-up is
idempotent. -/
theorem claim_C9_extraction (s : String)
    (hclean : ∀ c ∈ (extractText s).data, c ≠ '<' ∧ c ≠ '&') :
    extractText (extractText s) = extractText s := by
  show collapseWs (stripAndGetText (extractText s)) = extractText s
  rw [stripAndGetText_plain hclean]
  show collapseWs (collapseWs (stripAndGetText s)) = collapseWs (stripAndGetText s)
  exact collapseWs_idem (stripAndGetText s)

theorem lex_amp_amp_x : lexHtml "&amp;amp;x".data = "&amp;x".data.map Tok.txt := by
  simp [lexHtml]

theorem lex_amp_x : lexHtml "&amp;x".data = "&x".data.map Tok.txt := by
  simp [lexHtml]

theorem sub2_no_space {l : List Char} (h : ∀ c ∈ l, c ≠ ' ') : sub2 l = l := by
  induction l using sub2.induct with
  | case1 => rfl
  | case2 c => rfl
  | case3 c d cs hcd ih =>
    exact absurd hcd.1 (h c (List.mem_cons_self _ _))
  | case4 c d cs hcd ih =>
    rw [sub2_pair_keep cs hcd, ih (fun x hx => h x (List.mem_cons_of_mem _ hx))]

theorem collapseWs_no_ws {s : String} (h1 : '\n' ∉ s.data) (h2 : ∀ c ∈ s.data, c ≠ ' ') :
    collapseWs s = s := by
  show String.mk (sub2 (sub1 s.data)) = s
  rw [sub1_no_nl h1, sub2_no_space h2]

theorem extract_amp_amp_x : extractText "&amp;amp;x" = "&amp;x" := by
  show collapseWs (stripAndGetText "&amp;amp;x") = "&amp;x"
  have h1 : stripAndGetText "&amp;amp;x" = "&amp;x" := by
    unfold stripAndGetText
    rw [lex_amp_amp_x, collectStrings_txt]
    decide
  rw [h1]
  exact collapseWs_no_ws (by decide) (by decide)

theorem extract_amp_x : extractText "&amp;x" = "&x" := by
  show collapseWs (stripAndGetText "&amp;x") = "&x"
  have h1 : stripAndGetText "&amp;x" = "&x" := by
    unfold stripAndGetText
    rw [lex_amp_x, collectStrings_txt]
    decide
  rw [h1]
  exact collapseWs_no_ws (by decide) (by decide)

/-- Claim C9, counterexample: the HTML input with the literal character
reference sequence given below extracts once to a text containing an
entity-like substring, and extracting that output again decodes it
further — the extraction is not idempotent on all inputs, because
get_text output is re-parsed as HTML markup by the second pass. -/
theorem claim_C9_counterexample :
    extractText "&amp;amp;x" = "&amp;x" ∧
    extractText (extractText "&amp;amp;x") = "&x" ∧
    extractText (extractText "&amp;amp;x") ≠ extractText "&amp;amp;x" := by
  refine ⟨extract_amp_amp_x, ?_, ?_⟩
  · rw [extract_amp_amp_x, extract_amp_x]
  · rw [extract_amp_amp_x, extract_amp_x]
    decide

/-- Witness for claim C9's amended theorem on an input whose extracted
text is markup-free: the stray double space collapses once and the
second extraction is the identity. -/
theorem claim_C9_witness :
    extractText "hi  there" = "hi there" ∧
    (∀ c ∈ (extractText "hi  there").data, c ≠ '<' ∧ c ≠ '&') ∧
    extractText (extractText "hi  there") = extractText "hi  there" := by
  have heval : extractText "hi  there" = "hi there" := by
    show collapseWs (stripAndGetText "hi  there") = "hi there"
    rw [stripAndGetText_plain (by decide)]
    show String.mk (sub2 (sub1 "hi  there".data)) = "hi there"
    rw [sub1_no_nl (by decide)]
    decide
  refine ⟨heval, ?_, ?_⟩
  · rw [heval]
    decide
  · exact claim_C9_extraction "hi  there" (by rw [heval]; decide)

end Marketplace
